import Mathlib

/-!
Verification of the POS stock-batch ledger (FIFO sale allocation, batch
deduction and profit finalization, unit-hierarchy value resolution, margin
calculation, and the multi-partition sale transaction).

The embedding models the SQLite tables as Lean lists of rows and each Python
function acting on them as a pure function of that state.  Money columns
(`REAL` in the schema, Python floats) are modelled by `ℚ`; quantity columns
(`INTEGER`) by `Int`; nullable columns by `Option`.  The `synced` bookkeeping
flag and the `product_code`/`store_code` mirror columns are omitted: no
modelled code path reads them.  `landed_cost` is a generated column
(`buying_price + shipping_cost + handling_cost`) and is embedded as a derived
function, exactly as in `database_setup.py`.
-/

namespace POS

abbrev Money := ℚ

/-- A row of the `stock_batches` table (see `database_setup.py`). -/
structure StockBatch where
  id : Nat
  productId : Nat
  storeId : Nat
  batchNumber : String
  quantity : Int
  buyingPrice : Money
  shippingCost : Money
  handlingCost : Money
  receivedDate : Nat
  expiryDate : Option Nat
  isActive : Bool
  expectedMargin : Option Money
  actualMargin : Option Money
  totalExpectedProfit : Option Money
  totalActualProfit : Option Money
  originalQuantity : Int
deriving Repr, DecidableEq

/-- `landed_cost REAL GENERATED ALWAYS AS (buying_price + shipping_cost + handling_cost)`. -/
def StockBatch.landedCost (b : StockBatch) : Money :=
  b.buyingPrice + b.shippingCost + b.handlingCost

/-- A row of the `products` table (the columns the modelled paths touch). -/
structure Product where
  id : Nat
  name : String
  storeId : Nat
  stockQuantity : Int
  lowStockThreshold : Int
deriving Repr, DecidableEq

/-- The inventory partition (`inventory.db`): products plus stock batches. -/
structure InventoryState where
  products : List Product
  batches : List StockBatch
deriving Repr, DecidableEq

/-! ## FIFO selection (`get_stock_batches_for_sale`) -/

/-- The `WHERE` clause of the batch query in `get_stock_batches_for_sale`:
`product_id = ? AND store_id = ? AND is_active = 1 AND quantity > 0`. -/
def saleEligible (pid sid : Nat) (b : StockBatch) : Bool :=
  b.productId == pid && b.storeId == sid && b.isActive && decide (0 < b.quantity)

/-- The `ORDER BY received_date ASC, id ASC` ordering on batches. -/
def batchLE (a b : StockBatch) : Prop :=
  a.receivedDate < b.receivedDate ∨ (a.receivedDate = b.receivedDate ∧ a.id ≤ b.id)

/-- Strict version of `batchLE`: `a` comes strictly earlier in FIFO order. -/
def batchLT (a b : StockBatch) : Prop :=
  a.receivedDate < b.receivedDate ∨ (a.receivedDate = b.receivedDate ∧ a.id < b.id)

instance : DecidableRel batchLE := fun a b => by unfold batchLE; infer_instance

instance : DecidableRel batchLT := fun a b => by unfold batchLT; infer_instance

instance : IsTotal StockBatch batchLE :=
  ⟨fun a b => by unfold batchLE; omega⟩

instance : IsTrans StockBatch batchLE :=
  ⟨fun a b c hab hbc => by unfold batchLE at *; omega⟩

/-- The sorted batch list returned by the SQL query. -/
def sortBatchesFIFO (l : List StockBatch) : List StockBatch :=
  l.insertionSort batchLE

/-- One element of the `batches_to_update` list built by
`get_stock_batches_for_sale` (the dict appended per selected batch). -/
structure SelEntry where
  batchId : Nat
  batchNumber : String
  quantityToDeduct : Int
  currentQuantity : Int
  landedCost : Money
  buyingPrice : Money
  shippingCost : Money
  handlingCost : Money
  expectedMargin : Option Money
  originalQuantity : Int
deriving Repr, DecidableEq

/-- The dict built for a selected batch, deducting `d` units. -/
def SelEntry.ofBatch (b : StockBatch) (d : Int) : SelEntry :=
  { batchId := b.id
    batchNumber := b.batchNumber
    quantityToDeduct := d
    currentQuantity := b.quantity
    landedCost := b.landedCost
    buyingPrice := b.buyingPrice
    shippingCost := b.shippingCost
    handlingCost := b.handlingCost
    expectedMargin := b.expectedMargin
    originalQuantity := b.originalQuantity }

/-- The FIFO distribution loop of `get_stock_batches_for_sale`: walk the
ordered batches, take `min(batch.quantity, remaining)` from each, stop when
nothing remains.  Returns the selection and the final `remaining_quantity`. -/
def fifoDistribute : List StockBatch → Int → List SelEntry × Int
  | [], remaining => ([], remaining)
  | b :: rest, remaining =>
    if remaining ≤ 0 then ([], remaining)
    else
      let d := min b.quantity remaining
      let r := fifoDistribute rest (remaining - d)
      (SelEntry.ofBatch b d :: r.1, r.2)

/-- `get_stock_batches_for_sale(product_id, store_id, quantity_needed)`:
queries the active batches in FIFO order, distributes the needed quantity,
and returns `None` when there are no batches or the stock is insufficient. -/
def get_stock_batches_for_sale (db : List StockBatch) (pid sid : Nat) (qty : Int) :
    Option (List SelEntry) :=
  let batches := sortBatchesFIFO (db.filter (saleEligible pid sid))
  if batches.isEmpty then none
  else
    let r := fifoDistribute batches qty
    if 0 < r.2 then none else some r.1

/-- State-passing form of `get_stock_batches_for_sale`: the function only
executes a `SELECT`, so the batch table it returns is the one it was given. -/
def get_stock_batches_for_sale_st (db : List StockBatch) (pid sid : Nat) (qty : Int) :
    Option (List SelEntry) × List StockBatch :=
  (get_stock_batches_for_sale db pid sid qty, db)

/-- The Python truthiness test `if not batches_for_sale` used by `make_sale`
on the selection result: `None` and the empty list both count as unusable. -/
def allocationTruthy : Option (List SelEntry) → Bool
  | none => false
  | some l => !l.isEmpty

/-! ## Batch deduction (`update_stock_batches_after_sale`) -/

/-- The per-batch `UPDATE` of `update_stock_batches_after_sale`:
`quantity = current_quantity - quantity_to_deduct` (both taken from the
selection snapshot), `is_active = 1` iff the new quantity is positive,
`actual_margin = sale_price - landed_cost`, and
`total_actual_profit = COALESCE(total_actual_profit, 0) + margin * deducted`,
applied to the row whose `id` matches the entry. -/
def applyDeduction (salePricePerUnit : Money) (e : SelEntry) (b : StockBatch) : StockBatch :=
  if b.id = e.batchId then
    let actualMarginPerUnit := salePricePerUnit - e.landedCost
    let batchActualProfit := actualMarginPerUnit * (e.quantityToDeduct : ℚ)
    let newQuantity := e.currentQuantity - e.quantityToDeduct
    { b with quantity := newQuantity
           , isActive := decide (0 < newQuantity)
           , actualMargin := some actualMarginPerUnit
           , totalActualProfit := some (b.totalActualProfit.getD 0 + batchActualProfit) }
  else b

/-- `update_stock_batches_after_sale(batches_to_update, sale_price_per_unit, _)`:
issues one `UPDATE` per selection entry and accumulates the realized profit.
The function validates nothing: each write is driven entirely by the
snapshot stored in the selection. -/
def update_stock_batches_after_sale (db : List StockBatch) (sel : List SelEntry)
    (salePricePerUnit : Money) : List StockBatch × Money :=
  sel.foldl
    (fun acc e =>
      (acc.1.map (applyDeduction salePricePerUnit e),
       acc.2 + (salePricePerUnit - e.landedCost) * (e.quantityToDeduct : ℚ)))
    (db, 0)

/-! ## Batch profit finalization (`calculate_batch_profit`) -/

/-- The body of `calculate_batch_profit` on the fetched row: when the batch is
empty, take `actual_margin` if set else `expected_margin`, and only when
`total_actual_profit` is still NULL (and a margin exists) write
`total_actual_profit = margin * original_quantity`. -/
def finalizeBatch (b : StockBatch) : StockBatch :=
  if b.quantity = 0 then
    match b.totalActualProfit, b.actualMargin.orElse (fun _ => b.expectedMargin) with
    | none, some m =>
        { b with actualMargin := some m
               , totalActualProfit := some (m * (b.originalQuantity : ℚ)) }
    | _, _ => b
  else b

/-- `calculate_batch_profit(batch_id)` applied to the batch table. -/
def calculate_batch_profit (db : List StockBatch) (batchId : Nat) : List StockBatch :=
  db.map (fun b => if b.id = batchId then finalizeBatch b else b)

/-- Step 6 of `make_sale`: after the batch updates, run
`calculate_batch_profit` for every selected batch whose snapshot says it
reached zero (`current_quantity - quantity_to_deduct <= 0`). -/
def applyFinalizations (db : List StockBatch) (sel : List SelEntry) : List StockBatch :=
  sel.foldl
    (fun db e =>
      if e.currentQuantity - e.quantityToDeduct ≤ 0 then calculate_batch_profit db e.batchId
      else db)
    db

/-- Steps 5–6 of `make_sale` for one cart item: update the selected batches,
then finalize the depleted ones. -/
def sale_item_batches (db : List StockBatch) (sel : List SelEntry)
    (unitPrice : Money) : List StockBatch × Money :=
  let r := update_stock_batches_after_sale db sel unitPrice
  (applyFinalizations r.1 sel, r.2)

/-- Steps 4–6 of `make_sale` for one cart item on the inventory partition:
set the product's stock to the snapshot stock minus the sold quantity
(`new_stock = current_stock - quantity`, the snapshot being the stock read
from this same state when the product was selected), update the batches and
finalize the depleted ones.  `None` mirrors the insufficient-stock abort. -/
def make_sale_item (s : InventoryState) (pid sid : Nat) (qty : Int)
    (unitPrice : Money) : Option InventoryState :=
  match get_stock_batches_for_sale s.batches pid sid qty with
  | none => none
  | some sel =>
      some { products := s.products.map
               (fun p => if p.id == pid then { p with stockQuantity := p.stockQuantity - qty } else p)
           , batches := (sale_item_batches s.batches sel unitPrice).1 }

/-- A sequence of sale rounds against the inventory batches: each round
selects with `get_stock_batches_for_sale` and applies steps 5–6. -/
def runSales (pid sid : Nat) : List (Int × Money) → List StockBatch → Option (List StockBatch)
  | [], db => some db
  | (q, p) :: rest, db =>
      match get_stock_batches_for_sale db pid sid q with
      | none => none
      | some sel => runSales pid sid rest (sale_item_batches db sel p).1

/-! ## Stock invariant -/

/-- Sum of `quantity` over the active batches of one product in one store. -/
def activeQuantitySum (db : List StockBatch) (pid sid : Nat) : Int :=
  ((db.filter (fun b => b.productId == pid && b.storeId == sid && b.isActive)).map
    (·.quantity)).sum

/-- Sum of `quantity` over ALL batches of one product in one store — the
`SELECT COALESCE(SUM(quantity), 0)` used by the import/update path, which
does not filter on `is_active`. -/
def totalBatchQuantity (db : List StockBatch) (pid sid : Nat) : Int :=
  ((db.filter (fun b => b.productId == pid && b.storeId == sid)).map (·.quantity)).sum

/-- The spec invariant: every product's `stock_quantity` equals the sum of
quantities over its active batches. -/
def stockInvariant (s : InventoryState) : Prop :=
  ∀ p ∈ s.products, activeQuantitySum s.batches p.id p.storeId = p.stockQuantity

instance (s : InventoryState) : Decidable (stockInvariant s) := by
  unfold stockInvariant; infer_instance

/-! ## Import path (`insert_data_by_using_excel.py`) -/

/-- The per-row values an import supplies for a batch
(`product_data` fields used by the batch queries). -/
structure ImportRowData where
  stockQuantity : Int
  buyingPrice : Money
  shippingCost : Money
  handlingCost : Money
  retailPrice : Money
  wholesalePrice : Money
  expiryDate : Option Nat
  batchName : String
  lowStockThreshold : Int
deriving Repr, DecidableEq

/-- The inline `calculate_expected_margin` of
`update_existing_batch_transactional`: fixed 0.7/0.3 weights over the
retail/wholesale profits. -/
def importExpectedMargin (d : ImportRowData) : Money :=
  let landedCost := d.buyingPrice + d.shippingCost + d.handlingCost
  (d.retailPrice - landedCost) * (7 / 10) + (d.wholesalePrice - landedCost) * (3 / 10)

/-- The `WHERE product_id = ? AND batch_number = ? AND store_id = ?` clause of
the batch `UPDATE`. -/
def batchRowMatches (pid : Nat) (batchNumber : String) (sid : Nat) (b : StockBatch) : Bool :=
  b.productId == pid && b.batchNumber == batchNumber && b.storeId == sid

/-- The batch `UPDATE` of `update_existing_batch_transactional`: overwrite
quantity, costs, expected margin and expected profit with the imported row's
values; `original_quantity` is overwritten only when the stock-change check
succeeded (`updateOriginal`, the result of
`check_stock_quantity_changes_from_product_data`, an I/O-driven comparison
modelled here as a parameter).  Neither `is_active` nor the actual-profit
columns are touched. -/
def overwriteBatchRow (d : ImportRowData) (updateOriginal : Bool) (b : StockBatch) : StockBatch :=
  { b with quantity := d.stockQuantity
         , buyingPrice := d.buyingPrice
         , shippingCost := d.shippingCost
         , handlingCost := d.handlingCost
         , expectedMargin := some (importExpectedMargin d)
         , totalExpectedProfit := some (importExpectedMargin d * (d.stockQuantity : ℚ))
         , expiryDate := d.expiryDate
         , originalQuantity := if updateOriginal then d.stockQuantity else b.originalQuantity }

/-- `update_existing_batch_transactional` on the inventory partition: update
the matching batch rows; if any row matched, set the product's
`stock_quantity` to the sum of quantity over ALL its batches (active or not)
and its `low_stock_threshold` to the imported value.  (The
`store_product_prices` write of the source goes to the price table, which no
claim reads; it is outside this state.)  Returns the updated state and the
success flag. -/
def update_existing_batch_transactional (s : InventoryState) (pid : Nat)
    (batchNumber : String) (sid : Nat) (d : ImportRowData) (updateOriginal : Bool) :
    InventoryState × Bool :=
  let matched := s.batches.filter (batchRowMatches pid batchNumber sid)
  let batches := s.batches.map
    (fun b => if batchRowMatches pid batchNumber sid b then overwriteBatchRow d updateOriginal b else b)
  if matched.isEmpty then ({ s with batches := batches }, false)
  else
    let totalStock := totalBatchQuantity batches pid sid
    let products := s.products.map
      (fun p => if p.id == pid then
          { p with stockQuantity := totalStock, lowStockThreshold := d.lowStockThreshold }
        else p)
    (⟨products, batches⟩, true)

/-- `create_stock_batch_transactional`: a new receipt `INSERT`s a fresh
`stock_batches` row (`is_active` defaults to 1, `actual_margin` and
`total_actual_profit` default to 0, `original_quantity = quantity`,
`expected_margin = retail_price - landed_cost`); existing rows are untouched. -/
def create_stock_batch_transactional (s : InventoryState) (pid : Nat) (sid : Nat)
    (d : ImportRowData) (newId : Nat) (receivedDate : Nat) : InventoryState :=
  let landedCost := d.buyingPrice + d.shippingCost + d.handlingCost
  let expectedMargin := d.retailPrice - landedCost
  { s with batches := s.batches ++
      [{ id := newId
       , productId := pid
       , storeId := sid
       , batchNumber := d.batchName
       , quantity := d.stockQuantity
       , buyingPrice := d.buyingPrice
       , shippingCost := d.shippingCost
       , handlingCost := d.handlingCost
       , receivedDate := receivedDate
       , expiryDate := d.expiryDate
       , isActive := true
       , expectedMargin := some expectedMargin
       , actualMargin := some 0
       , totalExpectedProfit := some (expectedMargin * (d.stockQuantity : ℚ))
       , totalActualProfit := some 0
       , originalQuantity := d.stockQuantity }] }

/-! ## Margin calculation (`cost_calculation_service.py`) -/

/-- A row of the `sale_items` table (the columns `get_sales_stats` reads). -/
structure SaleItemRow where
  saleId : Nat
  productId : Nat
  quantity : Int
  unitPrice : Money
  isWholesale : Bool
deriving Repr, DecidableEq

/-- The `SalesStats` dataclass. -/
structure SalesStats where
  totalSales : Nat
  totalQuantity : ℚ
  retailRatio : ℚ
  wholesaleRatio : ℚ
  retailRevenue : ℚ
  wholesaleRevenue : ℚ
deriving Repr, DecidableEq

/-- `SalesStats()` — the dataclass defaults (0.7/0.3 ratio split). -/
def defaultSalesStats : SalesStats :=
  { totalSales := 0, totalQuantity := 0, retailRatio := 7 / 10, wholesaleRatio := 3 / 10
  , retailRevenue := 0, wholesaleRevenue := 0 }

/-- `SUM(quantity)` over the product's sale lines. -/
def salesTotalQty (items : List SaleItemRow) (pid : Nat) : ℚ :=
  ((items.filter (fun r => r.productId == pid)).map (fun r => (r.quantity : ℚ))).sum

/-- `SUM(CASE WHEN is_wholesale = 0 THEN quantity ELSE 0 END)`. -/
def salesRetailQty (items : List SaleItemRow) (pid : Nat) : ℚ :=
  ((items.filter (fun r => r.productId == pid && !r.isWholesale)).map
    (fun r => (r.quantity : ℚ))).sum

/-- `SUM(CASE WHEN is_wholesale = 1 THEN quantity ELSE 0 END)`. -/
def salesWholesaleQty (items : List SaleItemRow) (pid : Nat) : ℚ :=
  ((items.filter (fun r => r.productId == pid && r.isWholesale)).map
    (fun r => (r.quantity : ℚ))).sum

/-- `CostCalculationService.get_sales_stats`: default stats for an invalid
product id or when the product's total historical quantity is zero, else the
actual retail/wholesale split of quantity sold. -/
def get_sales_stats (items : List SaleItemRow) (pid : Nat) : SalesStats :=
  if pid = 0 then defaultSalesStats
  else
    let totalQty := salesTotalQty items pid
    if totalQty = 0 then defaultSalesStats
    else
      { totalSales := (items.filter (fun r => r.productId == pid)).length
      , totalQuantity := totalQty
      , retailRatio := salesRetailQty items pid / totalQty
      , wholesaleRatio := salesWholesaleQty items pid / totalQty
      , retailRevenue := ((items.filter (fun r => r.productId == pid && !r.isWholesale)).map
          (fun r => (r.quantity : ℚ) * r.unitPrice)).sum
      , wholesaleRevenue := ((items.filter (fun r => r.productId == pid && r.isWholesale)).map
          (fun r => (r.quantity : ℚ) * r.unitPrice)).sum }

/-- The `ProductCosts` dataclass fields that
`calculate_expected_margin` populates. -/
structure ProductCosts where
  retailPrice : Money
  wholesalePrice : Money
  buyingPrice : Money
  landedCost : Money
  retailProfit : Money
  wholesaleProfit : Money
  expectedMargin : Money
  retailRatio : ℚ
  wholesaleRatio : ℚ
  usedActualData : Bool
deriving Repr, DecidableEq

/-- `CostCalculationService.calculate_expected_margin`: start from the
default 0.7/0.3 split; for a valid product id take the ratios of
`get_sales_stats` (which itself falls back to the default split when no
history exists); then `retail_profit = retail_price - landed_cost`,
`wholesale_profit = wholesale_price - landed_cost` and the weighted
`expected_margin`. -/
def calculate_expected_margin (items : List SaleItemRow)
    (retailPrice wholesalePrice landedCost : Money) (productId : Option Nat) : ProductCosts :=
  let ratios : ℚ × ℚ × Bool :=
    match productId with
    | some pid =>
        if 0 < pid then
          let stats := get_sales_stats items pid
          (stats.retailRatio, stats.wholesaleRatio, decide (0 < stats.totalQuantity))
        else (7 / 10, 3 / 10, false)
    | none => (7 / 10, 3 / 10, false)
  let retailProfit := retailPrice - landedCost
  let wholesaleProfit := wholesalePrice - landedCost
  let expectedMargin := retailProfit * ratios.1 + wholesaleProfit * ratios.2.1
  { retailPrice := retailPrice
  , wholesalePrice := wholesalePrice
  , buyingPrice := landedCost
  , landedCost := landedCost
  , retailProfit := retailProfit
  , wholesaleProfit := wholesaleProfit
  , expectedMargin := expectedMargin
  , retailRatio := ratios.1
  , wholesaleRatio := ratios.2.1
  , usedActualData := ratios.2.2 }

/-! ## Unit-hierarchy value resolution (`insert_data_by_using_excel.py`)

The resolver works on the per-import map built by `build_product_hierarchy`:
`{unit: {big_unit, relation, has_values, stock_quantity, buying_price, ...}}`.
An empty `BIG_UNIT` cell is stored as `None`; value fields are `None` when the
cell was empty (reads go through `.get(field, 0) or 0`, i.e. `getD 0`). -/

/-- One entry of the `product_hierarchy` map. -/
structure HierEntry where
  unit : String
  bigUnit : Option String
  relation : ℚ
  hasValues : Bool
  stockQuantity : Option ℚ
  buyingPrice : Option ℚ
  shippingCost : Option ℚ
  handlingCost : Option ℚ
  lowStockThreshold : Option ℚ
deriving Repr, DecidableEq

abbrev Hierarchy := List HierEntry

/-- Dictionary lookup `product_hierarchy[unit]`. -/
def hierFind (h : Hierarchy) (u : String) : Option HierEntry :=
  h.find? (fun e => e.unit == u)

/-- One element of the `hierarchy_path` list built by `build_hierarchy_path`. -/
structure PathEntry where
  unit : String
  relation : ℚ
  parentUnit : Option String
deriving Repr, DecidableEq

/-- The `while` loop of `build_hierarchy_path`: follow the parent chain of
`current` (already appended), guarding against revisits; a parent missing from
the map is appended with relation 1 and ends the walk.  Fuel bounds the walk
by the map size (each step adds a fresh unit of the map to `visited`). -/
def buildPathLoop (h : Hierarchy) : Nat → String → List String → List PathEntry
  | 0, _, _ => []
  | fuel + 1, current, visited =>
    match hierFind h current with
    | none => []
    | some data =>
      match data.bigUnit with
      | none => []
      | some parent =>
        if parent ∈ visited then []
        else
          match hierFind h parent with
          | some pdata =>
              { unit := parent, relation := pdata.relation, parentUnit := pdata.bigUnit } ::
                buildPathLoop h fuel parent (parent :: visited)
          | none => [{ unit := parent, relation := 1, parentUnit := none }]

/-- `build_hierarchy_path(start_unit, product_hierarchy)`: the start unit
followed by its ancestors up to the base unit. -/
def build_hierarchy_path (h : Hierarchy) (startUnit : String) : List PathEntry :=
  match hierFind h startUnit with
  | none => []
  | some data =>
      { unit := startUnit, relation := data.relation, parentUnit := data.bigUnit } ::
        buildPathLoop h h.length startUnit [startUnit]

/-- `calculate_cumulative_relation(hierarchy_path, target_unit)`: the product
of `hierarchy_path[i].relation` for `i` from the target's index up to (and
excluding) the LAST element of the path — i.e. the relation product from the
target all the way to the path's base unit. -/
def calculate_cumulative_relation (path : List PathEntry) (target : String) : ℚ :=
  if path.isEmpty then 1
  else
    match path.findIdx? (fun e => e.unit == target) with
    | none => 1
    | some i => (((path.drop i).dropLast).map (·.relation)).prod

/-- `find_parent_with_values_recursive(unit, product_hierarchy)`: walk the
parent chain (the unit itself first) until an entry with `has_values` is
found; `None` on a revisit, a missing unit, or a chain end. -/
def find_parent_with_values (h : Hierarchy) : Nat → String → List String → Option HierEntry
  | 0, _, _ => none
  | fuel + 1, u, visited =>
    if u ∈ visited then none
    else
      match hierFind h u with
      | none => none
      | some data =>
        if data.hasValues then some data
        else
          match data.bigUnit with
          | none => none
          | some parent => find_parent_with_values h fuel parent (u :: visited)

/-- Python's `round(x, 2)` (round half to even at two decimals). -/
def roundHalfEven (q : ℚ) : ℤ :=
  if q - ⌊q⌋ < 1 / 2 then ⌊q⌋
  else if 1 / 2 < q - ⌊q⌋ then ⌊q⌋ + 1
  else if Even ⌊q⌋ then ⌊q⌋ else ⌊q⌋ + 1

def round2 (q : ℚ) : ℚ := (roundHalfEven (q * 100) : ℚ) / 100

/-- The explicit values the current row supplies for the target unit
(`None` for an empty cell, via `safe_float`). -/
structure ExplicitFields where
  stockQuantity : Option ℚ
  buyingPrice : Option ℚ
  shippingCost : Option ℚ
  handlingCost : Option ℚ
  lowStockThreshold : Option ℚ
deriving Repr, DecidableEq

/-- The row supplied nothing. -/
def ExplicitFields.empty : ExplicitFields := ⟨none, none, none, none, none⟩

/-- The resolved per-unit value set
(stock, buying, shipping, handling, low-stock threshold). -/
structure ResolvedValues where
  stockQuantity : ℚ
  buyingPrice : ℚ
  shippingCost : ℚ
  handlingCost : ℚ
  lowStockThreshold : ℚ
deriving Repr, DecidableEq

/-- The fall-through of `check_and_calculate_relation_values`: keep the
supplied values, defaulting empty cells to 0. -/
def passthroughValues (c : ExplicitFields) : ResolvedValues :=
  { stockQuantity := c.stockQuantity.getD 0
  , buyingPrice := c.buyingPrice.getD 0
  , shippingCost := c.shippingCost.getD 0
  , handlingCost := c.handlingCost.getD 0
  , lowStockThreshold := c.lowStockThreshold.getD 0 }

/-- `calculate_child_values`: fields the row already supplied are kept; a
missing cost field (buying/shipping/handling) becomes the supplying unit's
value divided by the cumulative relation, rounded to 2 decimals; a missing
quantity field (stock, low-stock threshold) becomes the supplying unit's
value multiplied by the cumulative relation. -/
def calculate_child_values (c : ExplicitFields) (parentData : HierEntry)
    (cumulativeRelation : ℚ) : ResolvedValues :=
  { stockQuantity := match c.stockQuantity with
      | some v => v
      | none => parentData.stockQuantity.getD 0 * cumulativeRelation
  , buyingPrice := match c.buyingPrice with
      | some v => v
      | none => round2 (parentData.buyingPrice.getD 0 / cumulativeRelation)
  , shippingCost := match c.shippingCost with
      | some v => v
      | none => round2 (parentData.shippingCost.getD 0 / cumulativeRelation)
  , handlingCost := match c.handlingCost with
      | some v => v
      | none => round2 (parentData.handlingCost.getD 0 / cumulativeRelation)
  , lowStockThreshold := match c.lowStockThreshold with
      | some v => v
      | none => parentData.lowStockThreshold.getD 0 * cumulativeRelation }

/-- `check_and_calculate_relation_values` for one row (the resolver proper):
build the path, compute the cumulative relation to the path's base, find the
nearest ancestor with values, and fill the missing fields; any failure falls
through to the supplied values.  The Bool is the `is_child_unit` flag. -/
def resolveUnitValues (h : Hierarchy) (unit : String) (c : ExplicitFields) :
    ResolvedValues × Bool :=
  if h.isEmpty || unit == "" then (passthroughValues c, false)
  else
    let path := build_hierarchy_path h unit
    if path.isEmpty then (passthroughValues c, false)
    else
      let cumulativeRelation := calculate_cumulative_relation path unit
      match find_parent_with_values h (h.length + 1) unit [] with
      | none => (passthroughValues c, false)
      | some parentData => (calculate_child_values c parentData cumulativeRelation, true)

/-! ## The sale transaction (`make_sale`)

`make_sale` writes to four independently committed stores in order: the sales
partition first (sale header, sale items, batch allocations — one commit),
then the inventory partition (product stock, batch deductions, batch profit
finalization), then the sale-profit update back on the sales partition, then
the debt or other-payment partition.  An exception in the inventory block is
caught, printed and the function returns: nothing undoes the sales-partition
commit.  Failure of a partition write is modelled by an injected flag. -/

/-- One cart entry assembled by the interactive loop: the quantity, the price
charged, the product stock snapshot read at selection time, and the FIFO
selection for the item. -/
structure CartItem where
  productId : Nat
  quantity : Int
  unitPrice : Money
  isWholesale : Bool
  totalPrice : Money
  currentStock : Int
  batches : List SelEntry
deriving Repr, DecidableEq

/-- A row of the `sales` table. -/
structure SaleRow where
  id : Nat
  storeId : Nat
  userId : Nat
  totalPrice : Money
  paymentMethod : String
deriving Repr, DecidableEq

/-- A row of the `sale_batch_allocations` table. -/
structure AllocationRow where
  saleId : Nat
  productId : Nat
  batchId : Nat
  quantity : Int
deriving Repr, DecidableEq

/-- The sales partition (`sales.db`). -/
structure SalesPartition where
  sales : List SaleRow
  saleItems : List SaleItemRow
  allocations : List AllocationRow
deriving Repr, DecidableEq

/-- A row of the `debts` table (`debts.db`). -/
structure DebtRow where
  saleId : Nat
  storeId : Nat
  debtorName : String
  debtorPhone : String
  amountOwed : Money
deriving Repr, DecidableEq

/-- A row of the `other_payments` table (`other_payments.db`). -/
structure OtherPaymentRow where
  saleId : Nat
  storeId : Nat
  description : String
deriving Repr, DecidableEq

/-- The four independently committed partitions. -/
structure SystemState where
  inventory : InventoryState
  salesDb : SalesPartition
  debtsDb : List DebtRow
  otherPaymentsDb : List OtherPaymentRow
deriving Repr, DecidableEq

/-- Steps 1–3 of `make_sale`, committed together on the sales partition:
insert the sale header, one `sale_items` row per cart item and one
`sale_batch_allocations` row per (item, selected batch). -/
def recordSaleCommit (sp : SalesPartition) (saleId storeId userId : Nat)
    (paymentMethod : String) (cart : List CartItem) : SalesPartition :=
  { sales := sp.sales ++
      [{ id := saleId, storeId := storeId, userId := userId
       , totalPrice := (cart.map (·.totalPrice)).sum, paymentMethod := paymentMethod }]
  , saleItems := sp.saleItems ++ cart.map
      (fun it => { saleId := saleId, productId := it.productId, quantity := it.quantity
                 , unitPrice := it.unitPrice, isWholesale := it.isWholesale })
  , allocations := sp.allocations ++ (cart.map
      (fun it => it.batches.map
        (fun b => AllocationRow.mk saleId it.productId b.batchId b.quantityToDeduct))).flatten }

/-- Step 4 of `make_sale`: per item, `stock_quantity = current_stock - quantity`
(from the snapshot) on the product row. -/
def updateInventoryStockStep (inv : InventoryState) (cart : List CartItem) : InventoryState :=
  { inv with products :=
      (cart.foldl
        (fun ps it => ps.map
          (fun p => if p.id == it.productId then
              { p with stockQuantity := it.currentStock - it.quantity } else p))
        inv.products) }

/-- Steps 5–6 of `make_sale`: per item, deduct the selected batches and
finalize the depleted ones. -/
def updateBatchesStep (inv : InventoryState) (cart : List CartItem) : InventoryState :=
  { inv with batches :=
      cart.foldl (fun db it => (sale_item_batches db it.batches it.unitPrice).1) inv.batches }

/-- How far `make_sale` got before returning. -/
inductive SaleOutcome
  | failedRecordingSale
  | failedInventory (saleId : Nat)
  | completed (saleId : Nat)
deriving Repr, DecidableEq

/-- The transaction sequence of `make_sale` after the cart is confirmed.
`recordFails` injects an exception inside the step 1–3 `try` (nothing is
committed anywhere); `inventoryFails` injects an exception inside the
step 4–6 `try` — the handler prints and returns, leaving the already
committed sales-partition writes in place.  Step 8 appends the debt or
other-payment row for the matching payment method. -/
def make_sale_txn (s : SystemState) (storeId userId saleId : Nat) (cart : List CartItem)
    (paymentMethod : String) (debtorInfo : Option (String × String))
    (otherDescription : Option String) (recordFails inventoryFails : Bool) :
    SystemState × SaleOutcome :=
  if recordFails then (s, .failedRecordingSale)
  else
    let s1 : SystemState :=
      { s with salesDb := recordSaleCommit s.salesDb saleId storeId userId paymentMethod cart }
    if inventoryFails then (s1, .failedInventory saleId)
    else
      let inv := updateBatchesStep (updateInventoryStockStep s1.inventory cart) cart
      let s2 : SystemState := { s1 with inventory := inv }
      let s3 : SystemState :=
        match paymentMethod == "DEBT", debtorInfo with
        | true, some di =>
            { s2 with debtsDb := s2.debtsDb ++
                [{ saleId := saleId, storeId := storeId, debtorName := di.1
                 , debtorPhone := di.2, amountOwed := (cart.map (·.totalPrice)).sum }] }
        | _, _ => s2
      let s4 : SystemState :=
        match paymentMethod == "OTHER", otherDescription with
        | true, some dsc =>
            { s3 with otherPaymentsDb := s3.otherPaymentsDb ++
                [{ saleId := saleId, storeId := storeId, description := dsc }] }
        | _, _ => s3
      (s4, .completed saleId)

/-! ## Lemmas about the FIFO distribution loop -/

theorem fifoDistribute_snd_eq (l : List StockBatch) :
    ∀ rem : Int, (fifoDistribute l rem).2 =
      rem - (((fifoDistribute l rem).1.map (·.quantityToDeduct)).sum) := by
  induction l with
  | nil => intro rem; simp [fifoDistribute]
  | cons b rest ih =>
      intro rem
      by_cases h : rem ≤ 0
      · simp [fifoDistribute, h]
      · simp only [fifoDistribute, if_neg h, List.map_cons, List.sum_cons]
        have := ih (rem - min b.quantity rem)
        simp [SelEntry.ofBatch] at this ⊢
        omega

theorem fifoDistribute_snd_nonneg (l : List StockBatch) :
    ∀ rem : Int, 0 ≤ rem → 0 ≤ (fifoDistribute l rem).2 := by
  induction l with
  | nil => intro rem h; simpa [fifoDistribute] using h
  | cons b rest ih =>
      intro rem h
      by_cases h0 : rem ≤ 0
      · simpa [fifoDistribute, h0] using h
      · simp only [fifoDistribute, if_neg h0]
        exact ih _ (by omega)

theorem fifoDistribute_snd_pos (l : List StockBatch) :
    ∀ rem : Int, (∀ b ∈ l, 0 < b.quantity) →
      (l.map (·.quantity)).sum < rem → 0 < (fifoDistribute l rem).2 := by
  induction l with
  | nil => intro rem _ hlt; simpa [fifoDistribute] using hlt
  | cons b rest ih =>
      intro rem hpos hlt
      have hsum : 0 ≤ ((rest.map (·.quantity)).sum) := by
        refine List.sum_nonneg ?_
        intro x hx
        obtain ⟨c, hc, rfl⟩ := List.mem_map.mp hx
        exact le_of_lt (hpos c (List.mem_cons_of_mem _ hc))
      have hb : 0 < b.quantity := hpos b (List.mem_cons_self _ _)
      simp only [List.map_cons, List.sum_cons] at hlt
      have h0 : ¬ rem ≤ 0 := by omega
      simp only [fifoDistribute, if_neg h0]
      refine ih _ (fun c hc => hpos c (List.mem_cons_of_mem _ hc)) ?_
      omega

theorem fifoDistribute_fst_ids (l : List StockBatch) :
    ∀ rem : Int, (fifoDistribute l rem).1.map (·.batchId) =
      (l.take (fifoDistribute l rem).1.length).map (·.id) := by
  induction l with
  | nil => intro rem; simp [fifoDistribute]
  | cons b rest ih =>
      intro rem
      by_cases h : rem ≤ 0
      · simp [fifoDistribute, h]
      · simp [fifoDistribute, if_neg h, SelEntry.ofBatch, ih]

theorem fifoDistribute_fst_nonempty_pos (l : List StockBatch) (rem : Int)
    (h : (fifoDistribute l rem).1 ≠ []) : 0 < rem := by
  cases l with
  | nil => simp [fifoDistribute] at h
  | cons b rest =>
      by_cases h0 : rem ≤ 0
      · simp [fifoDistribute, h0] at h
      · omega

theorem fifoDistribute_full_consumption (l : List StockBatch) :
    ∀ rem : Int, ∀ e ∈ (fifoDistribute l rem).1.dropLast,
      e.quantityToDeduct = e.currentQuantity := by
  induction l with
  | nil => intro rem e he; simp [fifoDistribute] at he
  | cons b rest ih =>
      intro rem e he
      by_cases h : rem ≤ 0
      · simp [fifoDistribute, h] at he
      · simp only [fifoDistribute, if_neg h] at he
        rcases h2 : (fifoDistribute rest (rem - min b.quantity rem)).1 with _ | ⟨x, xs⟩
        · simp [h2] at he
        · rw [h2] at he
          rw [List.dropLast_cons_of_ne_nil (by simp)] at he
          rcases List.mem_cons.mp he with rfl | he'
          · -- a later batch was selected, so this one was consumed in full
            have hpos : 0 < rem - min b.quantity rem :=
              fifoDistribute_fst_nonempty_pos rest _ (by simp [h2])
            simp only [SelEntry.ofBatch]
            omega
          · exact ih (rem - min b.quantity rem) e (by rw [h2]; exact he')

theorem fifoDistribute_honest (l : List StockBatch) :
    ∀ rem : Int, ∀ e ∈ (fifoDistribute l rem).1,
      ∃ b ∈ l, e = SelEntry.ofBatch b e.quantityToDeduct ∧
        e.quantityToDeduct ≤ b.quantity ∧
        (0 ≤ b.quantity → 0 ≤ e.quantityToDeduct) ∧
        (0 < b.quantity → 0 < e.quantityToDeduct) := by
  induction l with
  | nil => intro rem e he; simp [fifoDistribute] at he
  | cons b rest ih =>
      intro rem e he
      by_cases h : rem ≤ 0
      · simp [fifoDistribute, h] at he
      · simp only [fifoDistribute, if_neg h, List.mem_cons] at he
        rcases he with rfl | he'
        · refine ⟨b, List.mem_cons_self _ _, by simp [SelEntry.ofBatch], ?_, ?_, ?_⟩ <;>
            · simp only [SelEntry.ofBatch]; omega
        · obtain ⟨c, hc, h1, h2, h3, h4⟩ := ih _ e he'
          exact ⟨c, List.mem_cons_of_mem _ hc, h1, h2, h3, h4⟩

/-! ## Lemmas about the FIFO ordering -/

theorem sortBatchesFIFO_perm (l : List StockBatch) : List.Perm (sortBatchesFIFO l) l :=
  List.perm_insertionSort batchLE l

theorem mem_sortBatchesFIFO {l : List StockBatch} {b : StockBatch} :
    b ∈ sortBatchesFIFO l ↔ b ∈ l :=
  (sortBatchesFIFO_perm l).mem_iff

theorem sortBatchesFIFO_sorted (l : List StockBatch) :
    List.Sorted batchLE (sortBatchesFIFO l) :=
  List.sorted_insertionSort batchLE l

theorem batchLT_of_le_of_id_ne {a b : StockBatch} (h : batchLE a b) (hne : a.id ≠ b.id) :
    batchLT a b := by
  unfold batchLE at h; unfold batchLT; omega

theorem batchLT_asymm {a b : StockBatch} (h : batchLT a b) (h' : batchLT b a) : False := by
  unfold batchLT at h h'; omega

/-- With pairwise-distinct batch ids the FIFO order is strictly increasing. -/
theorem sortBatchesFIFO_pairwise_lt {l : List StockBatch}
    (hids : (l.map (·.id)).Nodup) :
    List.Pairwise batchLT (sortBatchesFIFO l) := by
  have hperm : List.Perm ((sortBatchesFIFO l).map (·.id)) (l.map (·.id)) :=
    (sortBatchesFIFO_perm l).map _
  have hnd : ((sortBatchesFIFO l).map (·.id)).Nodup := hperm.nodup_iff.mpr hids
  have hpw : List.Pairwise (fun a b : StockBatch => a.id ≠ b.id) (sortBatchesFIFO l) :=
    (List.pairwise_map.mp hnd)
  exact ((sortBatchesFIFO_sorted l).and hpw).imp
    (fun h => batchLT_of_le_of_id_ne h.1 h.2)

/-- If `b` is in the first `n` positions of a strictly ordered list and `a`
comes strictly before it, then `a` is also in the first `n` positions. -/
theorem mem_take_of_rel_of_mem_take {α : Type _} {R : α → α → Prop}
    (hasym : ∀ x y, R x y → R y x → False) :
    ∀ (l : List α) (n : Nat) (a b : α), l.Pairwise R → a ∈ l → b ∈ l.take n →
      R a b → a ∈ l.take n := by
  intro l
  induction l with
  | nil => intro n a b _ ha; simp at ha
  | cons x rest ih =>
      intro n a b hpw ha hb hR
      cases n with
      | zero => simp at hb
      | succ m =>
          simp only [List.take_succ_cons, List.mem_cons] at hb ⊢
          rcases List.mem_cons.mp ha with rfl | ha'
          · exact Or.inl rfl
          · rcases hb with rfl | hb'
            · exact absurd hR (fun hR => hasym _ _ hR ((List.pairwise_cons.mp hpw).1 a ha'))
            · exact Or.inr (ih m a b (List.pairwise_cons.mp hpw).2 ha' hb' hR)

/-! ## Lemmas about `get_stock_batches_for_sale` -/

/-- Every entry of a successful selection is an honest snapshot of an
eligible batch of the same product and store. -/
theorem selection_honest {db : List StockBatch} {pid sid : Nat} {qty : Int}
    {sel : List SelEntry}
    (hsel : get_stock_batches_for_sale db pid sid qty = some sel) :
    ∀ e ∈ sel, ∃ b ∈ db,
      e = SelEntry.ofBatch b e.quantityToDeduct ∧
      b.productId = pid ∧ b.storeId = sid ∧ b.isActive = true ∧ 0 < b.quantity ∧
      0 < e.quantityToDeduct ∧ e.quantityToDeduct ≤ b.quantity := by
  intro e he
  unfold get_stock_batches_for_sale at hsel
  by_cases hemp : (sortBatchesFIFO (db.filter (saleEligible pid sid))).isEmpty
  · simp [hemp] at hsel
  · simp only [if_neg hemp] at hsel
    by_cases hrem : 0 < (fifoDistribute (sortBatchesFIFO (db.filter (saleEligible pid sid))) qty).2
    · simp [hrem] at hsel
    · simp only [if_neg hrem, Option.some.injEq] at hsel
      subst hsel
      obtain ⟨b, hb, heq, hle, _, hpos⟩ := fifoDistribute_honest _ qty e he
      have hbf : b ∈ db.filter (saleEligible pid sid) := mem_sortBatchesFIFO.mp hb
      have hbd : b ∈ db := List.mem_of_mem_filter hbf
      have helig : saleEligible pid sid b := List.of_mem_filter hbf
      simp only [saleEligible, Bool.and_eq_true, beq_iff_eq, decide_eq_true_eq] at helig
      exact ⟨b, hbd, heq, helig.1.1.1, helig.1.1.2, helig.1.2, helig.2,
        hpos helig.2, hle⟩

/-- A successful selection's ids are the ids of an initial segment of the
FIFO-ordered eligible batches. -/
theorem selection_ids_take {db : List StockBatch} {pid sid : Nat} {qty : Int}
    {sel : List SelEntry}
    (hsel : get_stock_batches_for_sale db pid sid qty = some sel) :
    sel.map (·.batchId) =
      ((sortBatchesFIFO (db.filter (saleEligible pid sid))).take sel.length).map (·.id) := by
  unfold get_stock_batches_for_sale at hsel
  by_cases hemp : (sortBatchesFIFO (db.filter (saleEligible pid sid))).isEmpty
  · simp [hemp] at hsel
  · simp only [if_neg hemp] at hsel
    by_cases hrem : 0 < (fifoDistribute (sortBatchesFIFO (db.filter (saleEligible pid sid))) qty).2
    · simp [hrem] at hsel
    · simp only [if_neg hrem, Option.some.injEq] at hsel
      subst hsel
      exact fifoDistribute_fst_ids _ qty

/-- A successful selection of a nonnegative quantity deducts exactly that
quantity in total. -/
theorem selection_sum_deducts {db : List StockBatch} {pid sid : Nat} {qty : Int}
    {sel : List SelEntry}
    (hsel : get_stock_batches_for_sale db pid sid qty = some sel) (hq : 0 ≤ qty) :
    (sel.map (·.quantityToDeduct)).sum = qty := by
  unfold get_stock_batches_for_sale at hsel
  by_cases hemp : (sortBatchesFIFO (db.filter (saleEligible pid sid))).isEmpty
  · simp [hemp] at hsel
  · simp only [if_neg hemp] at hsel
    by_cases hrem : 0 < (fifoDistribute (sortBatchesFIFO (db.filter (saleEligible pid sid))) qty).2
    · simp [hrem] at hsel
    · simp only [if_neg hrem, Option.some.injEq] at hsel
      subst hsel
      have h1 := fifoDistribute_snd_eq (sortBatchesFIFO (db.filter (saleEligible pid sid))) qty
      have h2 := fifoDistribute_snd_nonneg (sortBatchesFIFO (db.filter (saleEligible pid sid))) qty hq
      omega

/-- The ids of a successful selection are pairwise distinct whenever the
batch table's ids are. -/
theorem selection_ids_nodup {db : List StockBatch} {pid sid : Nat} {qty : Int}
    {sel : List SelEntry}
    (hids : (db.map (·.id)).Nodup)
    (hsel : get_stock_batches_for_sale db pid sid qty = some sel) :
    (sel.map (·.batchId)).Nodup := by
  rw [selection_ids_take hsel]
  have h1 : ((db.filter (saleEligible pid sid)).map (·.id)).Nodup :=
    hids.sublist ((List.filter_sublist db).map (·.id))
  have h2 : ((sortBatchesFIFO (db.filter (saleEligible pid sid))).map (·.id)).Nodup :=
    (((sortBatchesFIFO_perm _).map _).nodup_iff).mpr h1
  rw [List.map_take]
  exact h2.sublist (List.take_sublist _ _)


/-! ## Lemmas about the batch updates -/

/-- Batch-table form of the update: the accumulator's profit component does
not influence the writes. -/
def updDB (p : Money) (sel : List SelEntry) (db : List StockBatch) : List StockBatch :=
  sel.foldl (fun db e => db.map (applyDeduction p e)) db

theorem update_batches_fst (p : Money) (sel : List SelEntry) :
    ∀ (db : List StockBatch) (acc : Money),
      (sel.foldl
        (fun acc e =>
          (acc.1.map (applyDeduction p e),
           acc.2 + (p - e.landedCost) * (e.quantityToDeduct : ℚ)))
        (db, acc)).1 = updDB p sel db := by
  induction sel with
  | nil => intro db acc; rfl
  | cons e rest ih => intro db acc; exact ih _ _

theorem update_stock_batches_after_sale_fst (db : List StockBatch) (sel : List SelEntry)
    (p : Money) : (update_stock_batches_after_sale db sel p).1 = updDB p sel db :=
  update_batches_fst p sel db 0

theorem update_batches_snd (p : Money) (sel : List SelEntry) :
    ∀ (db : List StockBatch) (acc : Money),
      (sel.foldl
        (fun acc e =>
          (acc.1.map (applyDeduction p e),
           acc.2 + (p - e.landedCost) * (e.quantityToDeduct : ℚ)))
        (db, acc)).2 =
      acc + (sel.map (fun e => (p - e.landedCost) * (e.quantityToDeduct : ℚ))).sum := by
  induction sel with
  | nil => intro db acc; simp
  | cons e rest ih =>
      intro db acc
      simp only [List.foldl_cons, List.map_cons, List.sum_cons]
      rw [ih]
      ring

theorem update_stock_batches_after_sale_snd (db : List StockBatch) (sel : List SelEntry)
    (p : Money) : (update_stock_batches_after_sale db sel p).2 =
      (sel.map (fun e => (p - e.landedCost) * (e.quantityToDeduct : ℚ))).sum := by
  have := update_batches_snd p sel db 0
  simpa [update_stock_batches_after_sale] using this

theorem applyDeduction_of_ne (p : Money) (e : SelEntry) (b : StockBatch)
    (h : b.id ≠ e.batchId) : applyDeduction p e b = b := by
  simp [applyDeduction, h]

theorem applyDeduction_id (p : Money) (e : SelEntry) (b : StockBatch) :
    (applyDeduction p e b).id = b.id := by
  unfold applyDeduction; split <;> rfl

theorem applyDeduction_productId (p : Money) (e : SelEntry) (b : StockBatch) :
    (applyDeduction p e b).productId = b.productId := by
  unfold applyDeduction; split <;> rfl

theorem applyDeduction_storeId (p : Money) (e : SelEntry) (b : StockBatch) :
    (applyDeduction p e b).storeId = b.storeId := by
  unfold applyDeduction; split <;> rfl

theorem updDB_ids (p : Money) (sel : List SelEntry) :
    ∀ db : List StockBatch, (updDB p sel db).map (·.id) = db.map (·.id) := by
  induction sel with
  | nil => intro db; rfl
  | cons e rest ih =>
      intro db
      show (updDB p rest (db.map (applyDeduction p e))).map (·.id) = _
      rw [ih, List.map_map]
      exact List.map_congr_left (fun b _ => applyDeduction_id p e b)

/-- Contribution of one batch row to `activeQuantitySum`. -/
theorem activeQuantitySum_cons (b : StockBatch) (rest : List StockBatch) (pid sid : Nat) :
    activeQuantitySum (b :: rest) pid sid =
      (if b.productId = pid ∧ b.storeId = sid ∧ b.isActive = true then b.quantity else 0) +
        activeQuantitySum rest pid sid := by
  simp only [activeQuantitySum, List.filter_cons]
  by_cases h : b.productId = pid ∧ b.storeId = sid ∧ b.isActive = true
  · obtain ⟨h1, h2, h3⟩ := h
    simp [h1, h2, h3]
  · rw [if_neg h]
    have : (b.productId == pid && b.storeId == sid && b.isActive) = false := by
      by_cases e1 : b.productId = pid <;> by_cases e2 : b.storeId = sid <;>
        by_cases e3 : b.isActive = true <;> simp [e1, e2, e3] at h ⊢
    simp [this]

/-- Quantity written by a matching deduction. -/
theorem applyDeduction_quantity_of_match (p : Money) (e : SelEntry) (b : StockBatch)
    (hid : b.id = e.batchId) :
    (applyDeduction p e b).quantity = e.currentQuantity - e.quantityToDeduct := by
  rw [applyDeduction, if_pos hid]

/-- Activation flag written by a matching deduction. -/
theorem applyDeduction_isActive_of_match (p : Money) (e : SelEntry) (b : StockBatch)
    (hid : b.id = e.batchId) :
    (applyDeduction p e b).isActive = decide (0 < e.currentQuantity - e.quantityToDeduct) := by
  rw [applyDeduction, if_pos hid]

/-- Applying one honest selection entry removes exactly its deduction from the
product's active quantity and leaves every other product untouched. -/
theorem applyDeduction_activeQuantitySum (p : Money) (e : SelEntry) (pid0 sid0 : Nat) :
    ∀ db : List StockBatch, (db.map (·.id)).Nodup →
      (∃ b0 ∈ db, b0.id = e.batchId ∧ e.currentQuantity = b0.quantity ∧
        0 ≤ e.quantityToDeduct ∧ e.quantityToDeduct ≤ b0.quantity ∧
        b0.productId = pid0 ∧ b0.storeId = sid0 ∧ b0.isActive = true) →
      ∀ pid sid, activeQuantitySum (db.map (applyDeduction p e)) pid sid =
        activeQuantitySum db pid sid -
          (if pid = pid0 ∧ sid = sid0 then e.quantityToDeduct else 0) := by
  intro db
  induction db with
  | nil => intro _ h; obtain ⟨b0, hb0, _⟩ := h; simp at hb0
  | cons b rest ih =>
      intro hnd hex pid sid
      obtain ⟨b0, hb0mem, hid, hcur, hd0, hdle, hprod, hstore, hact⟩ := hex
      have hndrest : (rest.map (·.id)).Nodup := (List.nodup_cons.mp hnd).2
      have hbnotin : b.id ∉ rest.map (·.id) := (List.nodup_cons.mp hnd).1
      rcases List.mem_cons.mp hb0mem with heq | hb0rest
      · -- the matched batch is the head
        subst heq
        have hrest_same : rest.map (applyDeduction p e) = rest := by
          have hfix : ∀ c ∈ rest, applyDeduction p e c = c := by
            intro c hc
            refine applyDeduction_of_ne p e c ?_
            intro hc_id
            exact hbnotin (by rw [hid, ← hc_id]; exact List.mem_map_of_mem _ hc)
          exact (List.map_congr_left hfix).trans (List.map_id _)
        simp only [List.map_cons, hrest_same]
        rw [activeQuantitySum_cons, activeQuantitySum_cons]
        simp only [applyDeduction_productId, applyDeduction_storeId,
          applyDeduction_quantity_of_match p e b0 hid,
          applyDeduction_isActive_of_match p e b0 hid, decide_eq_true_eq]
        by_cases hps : pid = pid0 ∧ sid = sid0
        · have hpb : b0.productId = pid := by rw [hprod, hps.1]
          have hsb : b0.storeId = sid := by rw [hstore, hps.2]
          by_cases hq : 0 < e.currentQuantity - e.quantityToDeduct
          · rw [if_pos ⟨hpb, hsb, hq⟩, if_pos ⟨hpb, hsb, hact⟩, if_pos hps]; omega
          · rw [if_neg (fun h => hq h.2.2), if_pos ⟨hpb, hsb, hact⟩, if_pos hps]; omega
        · have hcond : ¬ (b0.productId = pid ∧ b0.storeId = sid) := by
            rintro ⟨h1, h2⟩
            exact hps ⟨h1.symm.trans hprod, h2.symm.trans hstore⟩
          rw [if_neg (fun h => hcond ⟨h.1, h.2.1⟩),
            if_neg (fun h => hcond ⟨h.1, h.2.1⟩), if_neg hps]
          omega
      · -- the matched batch is in the tail
        have hbne : b.id ≠ e.batchId := by
          intro hcontra
          exact hbnotin (by rw [hcontra, ← hid]; exact List.mem_map_of_mem _ hb0rest)
        simp only [List.map_cons, applyDeduction_of_ne p e b hbne]
        rw [activeQuantitySum_cons, activeQuantitySum_cons]
        rw [ih hndrest ⟨b0, hb0rest, hid, hcur, hd0, hdle, hprod, hstore, hact⟩ pid sid]
        omega


/-- The fold of per-entry updates acts pointwise on the batch table. -/
theorem foldl_map_comm {α β : Type _} (g : β → α → α) :
    ∀ (sel : List β) (db : List α),
      sel.foldl (fun db e => db.map (g e)) db =
        db.map (fun b => sel.foldl (fun b e => g e b) b) := by
  intro sel
  induction sel with
  | nil => intro db; simp
  | cons e rest ih =>
      intro db
      simp only [List.foldl_cons]
      rw [ih, List.map_map]
      rfl

/-- All deductions of a selection applied to a single batch row. -/
def applyAllDeduct (p : Money) (sel : List SelEntry) (b : StockBatch) : StockBatch :=
  sel.foldl (fun b e => applyDeduction p e b) b

theorem updDB_eq_map (p : Money) (sel : List SelEntry) (db : List StockBatch) :
    updDB p sel db = db.map (applyAllDeduct p sel) :=
  foldl_map_comm _ sel db

/-- With pairwise-distinct entry ids, a batch row is touched by at most the
(unique) entry whose id matches it. -/
theorem applyAllDeduct_find (p : Money) :
    ∀ (sel : List SelEntry), (sel.map (·.batchId)).Nodup → ∀ b : StockBatch,
      applyAllDeduct p sel b =
        match sel.find? (fun e => e.batchId == b.id) with
        | some e => applyDeduction p e b
        | none => b := by
  intro sel
  induction sel with
  | nil => intro _ b; rfl
  | cons e rest ih =>
      intro hnd b
      have hnd' : (rest.map (·.batchId)).Nodup := (List.nodup_cons.mp hnd).2
      have hnotin : e.batchId ∉ rest.map (·.batchId) := (List.nodup_cons.mp hnd).1
      by_cases hb : e.batchId = b.id
      · have hfix : ∀ e' ∈ rest, e'.batchId ≠ (applyDeduction p e b).id := by
          intro e' he' hcontra
          rw [applyDeduction_id, ← hb] at hcontra
          exact hnotin (hcontra ▸ List.mem_map_of_mem _ he')
        have : applyAllDeduct p rest (applyDeduction p e b) = applyDeduction p e b := by
          rw [ih hnd']
          have hfind : rest.find? (fun e' => e'.batchId == (applyDeduction p e b).id) = none := by
            rw [List.find?_eq_none]
            intro e' he'
            simpa using hfix e' he'
          rw [hfind]
        show applyAllDeduct p rest (applyDeduction p e b) = _
        rw [this, List.find?_cons_of_pos _ (by simpa using hb)]
      · show applyAllDeduct p rest (applyDeduction p e b) = _
        rw [applyDeduction_of_ne p e b (fun h => hb h.symm),
          List.find?_cons_of_neg _ (by simpa using hb), ih hnd']

/-- A full honest selection update subtracts exactly the selection's total
deduction from the sold product's active quantity, and nothing else. -/
theorem updDB_activeQuantitySum (p : Money) (pid0 sid0 : Nat) :
    ∀ (sel : List SelEntry) (db : List StockBatch), (db.map (·.id)).Nodup →
      (sel.map (·.batchId)).Nodup →
      (∀ e ∈ sel, ∃ b0 ∈ db, b0.id = e.batchId ∧ e.currentQuantity = b0.quantity ∧
        0 ≤ e.quantityToDeduct ∧ e.quantityToDeduct ≤ b0.quantity ∧
        b0.productId = pid0 ∧ b0.storeId = sid0 ∧ b0.isActive = true) →
      ∀ pid sid, activeQuantitySum (updDB p sel db) pid sid =
        activeQuantitySum db pid sid -
          (if pid = pid0 ∧ sid = sid0 then (sel.map (·.quantityToDeduct)).sum else 0) := by
  intro sel
  induction sel with
  | nil =>
      intro db _ _ _ pid sid
      simp [updDB]
  | cons e rest ih =>
      intro db hdbnd hselnd honest pid sid
      have hnd' : (rest.map (·.batchId)).Nodup := (List.nodup_cons.mp hselnd).2
      have hnotin : e.batchId ∉ rest.map (·.batchId) := (List.nodup_cons.mp hselnd).1
      have hstep := applyDeduction_activeQuantitySum p e pid0 sid0 db hdbnd
        (honest e (List.mem_cons_self _ _)) pid sid
      have hids : (db.map (applyDeduction p e)).map (·.id) = db.map (·.id) := by
        rw [List.map_map]
        exact List.map_congr_left (fun b _ => applyDeduction_id p e b)
      have honest' : ∀ e' ∈ rest, ∃ b0 ∈ db.map (applyDeduction p e),
          b0.id = e'.batchId ∧ e'.currentQuantity = b0.quantity ∧
          0 ≤ e'.quantityToDeduct ∧ e'.quantityToDeduct ≤ b0.quantity ∧
          b0.productId = pid0 ∧ b0.storeId = sid0 ∧ b0.isActive = true := by
        intro e' he'
        obtain ⟨b0, hb0mem, hid, hrest⟩ := honest e' (List.mem_cons_of_mem _ he')
        have hne : b0.id ≠ e.batchId := by
          intro hcontra
          rw [hid] at hcontra
          exact hnotin (hcontra ▸ List.mem_map_of_mem _ he')
        refine ⟨b0, ?_, hid, hrest⟩
        have : applyDeduction p e b0 = b0 := applyDeduction_of_ne p e b0 hne
        exact this ▸ List.mem_map_of_mem _ hb0mem
      have hrec := ih (db.map (applyDeduction p e)) (hids ▸ hdbnd) hnd' honest' pid sid
      show activeQuantitySum (updDB p rest (db.map (applyDeduction p e))) pid sid = _
      rw [hrec, hstep]
      by_cases hps : pid = pid0 ∧ sid = sid0
      · rw [if_pos hps, if_pos hps, if_pos hps]
        simp only [List.map_cons, List.sum_cons]
        omega
      · rw [if_neg hps, if_neg hps, if_neg hps]
        omega

/-- After an honest selection update, every batch row descends from a row of
the same id whose quantity was at least as large. -/
theorem updDB_quantity_le (p : Money) (sel : List SelEntry) (db : List StockBatch)
    (hdbnd : (db.map (·.id)).Nodup) (hselnd : (sel.map (·.batchId)).Nodup)
    (honest : ∀ e ∈ sel, ∃ b0 ∈ db, b0.id = e.batchId ∧
      e.currentQuantity = b0.quantity ∧ 0 ≤ e.quantityToDeduct) :
    ∀ b2 ∈ updDB p sel db, ∃ b ∈ db, b2.id = b.id ∧ b2.quantity ≤ b.quantity := by
  intro b2 hb2
  rw [updDB_eq_map] at hb2
  obtain ⟨b, hb, rfl⟩ := List.mem_map.mp hb2
  rw [applyAllDeduct_find p sel hselnd b]
  rcases hfind : sel.find? (fun e => e.batchId == b.id) with _ | e
  · simp only [hfind]
    exact ⟨b, hb, rfl, le_refl _⟩
  · simp only [hfind]
    have he : e ∈ sel := List.mem_of_find?_eq_some hfind
    have heid : e.batchId = b.id := by simpa using List.find?_some hfind
    obtain ⟨b0, hb0mem, hid, hcur, hd0⟩ := honest e he
    have hb0b : b0 = b := by
      have := List.inj_on_of_nodup_map hdbnd hb0mem hb
      exact this (by rw [hid, heid])
    refine ⟨b, hb, applyDeduction_id p e b, ?_⟩
    rw [applyDeduction_quantity_of_match p e b heid.symm, hcur, hb0b]
    omega

/-- `finalizeBatch` only writes the margin columns. -/
theorem finalizeBatch_preserves (b : StockBatch) :
    (finalizeBatch b).id = b.id ∧ (finalizeBatch b).productId = b.productId ∧
    (finalizeBatch b).storeId = b.storeId ∧ (finalizeBatch b).quantity = b.quantity ∧
    (finalizeBatch b).isActive = b.isActive := by
  unfold finalizeBatch
  by_cases h : b.quantity = 0
  · rw [if_pos h]
    rcases htot : b.totalActualProfit with _ | v
    · rcases ham : b.actualMargin.orElse (fun _ => b.expectedMargin) with _ | m
      · simp
      · simp
    · simp
  · rw [if_neg h]
    exact ⟨rfl, rfl, rfl, rfl, rfl⟩

/-- Pointwise description of `calculate_batch_profit`. -/
theorem calculate_batch_profit_pointwise (db : List StockBatch) (i : Nat) :
    ∀ b2 ∈ calculate_batch_profit db i, ∃ b ∈ db, b2.id = b.id ∧
      b2.productId = b.productId ∧ b2.storeId = b.storeId ∧
      b2.quantity = b.quantity ∧ b2.isActive = b.isActive := by
  intro b2 hb2
  obtain ⟨b, hb, rfl⟩ := List.mem_map.mp hb2
  by_cases h : b.id = i
  · obtain ⟨h1, h2, h3, h4, h5⟩ := finalizeBatch_preserves b
    exact ⟨b, hb, by simp [h, h1, h2, h3, h4, h5]⟩
  · exact ⟨b, hb, by simp [h]⟩

/-- A map that changes neither the filter columns nor the quantity leaves
`activeQuantitySum` unchanged. -/
theorem activeQuantitySum_map_preserve (f : StockBatch → StockBatch)
    (db : List StockBatch)
    (h : ∀ b ∈ db, (f b).productId = b.productId ∧ (f b).storeId = b.storeId ∧
      (f b).isActive = b.isActive ∧ (f b).quantity = b.quantity) :
    ∀ pid sid, activeQuantitySum (db.map f) pid sid = activeQuantitySum db pid sid := by
  induction db with
  | nil => intro pid sid; rfl
  | cons b rest ih =>
      intro pid sid
      obtain ⟨h1, h2, h3, h4⟩ := h b (List.mem_cons_self _ _)
      simp only [List.map_cons]
      rw [activeQuantitySum_cons, activeQuantitySum_cons, h1, h2, h3, h4,
        ih (fun c hc => h c (List.mem_cons_of_mem _ hc)) pid sid]

theorem calculate_batch_profit_activeQuantitySum (db : List StockBatch) (i : Nat)
    (pid sid : Nat) :
    activeQuantitySum (calculate_batch_profit db i) pid sid = activeQuantitySum db pid sid := by
  refine activeQuantitySum_map_preserve _ db ?_ pid sid
  intro b _
  by_cases h : b.id = i
  · obtain ⟨_, h2, h3, h4, h5⟩ := finalizeBatch_preserves b
    simp [h, h2, h3, h4, h5]
  · simp [h]

theorem applyFinalizations_activeQuantitySum :
    ∀ (sel : List SelEntry) (db : List StockBatch) (pid sid : Nat),
      activeQuantitySum (applyFinalizations db sel) pid sid =
        activeQuantitySum db pid sid := by
  intro sel
  induction sel with
  | nil => intro db pid sid; rfl
  | cons e rest ih =>
      intro db pid sid
      show activeQuantitySum
        (applyFinalizations
          (if e.currentQuantity - e.quantityToDeduct ≤ 0
           then calculate_batch_profit db e.batchId else db) rest) pid sid = _
      rw [ih]
      by_cases h : e.currentQuantity - e.quantityToDeduct ≤ 0
      · rw [if_pos h, calculate_batch_profit_activeQuantitySum]
      · rw [if_neg h]

theorem applyFinalizations_pointwise :
    ∀ (sel : List SelEntry) (db : List StockBatch), ∀ b2 ∈ applyFinalizations db sel,
      ∃ b ∈ db, b2.id = b.id ∧ b2.quantity = b.quantity ∧ b2.isActive = b.isActive := by
  intro sel
  induction sel with
  | nil => intro db b2 hb2; exact ⟨b2, hb2, rfl, rfl, rfl⟩
  | cons e rest ih =>
      intro db b2 hb2
      have hb2' : b2 ∈ applyFinalizations
          (if e.currentQuantity - e.quantityToDeduct ≤ 0
           then calculate_batch_profit db e.batchId else db) rest := hb2
      obtain ⟨b1, hb1, hid, hq, hact⟩ := ih _ b2 hb2'
      by_cases h : e.currentQuantity - e.quantityToDeduct ≤ 0
      · rw [if_pos h] at hb1
        obtain ⟨b, hb, hid2, _, _, hq2, hact2⟩ := calculate_batch_profit_pointwise db e.batchId b1 hb1
        exact ⟨b, hb, hid.trans hid2, hq.trans hq2, hact.trans hact2⟩
      · rw [if_neg h] at hb1
        exact ⟨b1, hb1, hid, hq, hact⟩


/-! ## Claim theorems -/

theorem fifoDistribute_zero (l : List StockBatch) : fifoDistribute l 0 = ([], 0) := by
  cases l <;> simp [fifoDistribute]

/-- C10: a selection request with `quantity_needed = 0` returns `None` when
the product has no batch passing the active-and-positive filter, returns the
empty list otherwise, and in either case fails `make_sale`'s
`if not batches_for_sale` truthiness test — a zero-quantity request can never
complete as a usable allocation. -/
theorem c10_zero_quantity_selection (db : List StockBatch) (pid sid : Nat) :
    get_stock_batches_for_sale db pid sid 0 =
      (if (db.filter (saleEligible pid sid)).isEmpty then none else some []) ∧
    allocationTruthy (get_stock_batches_for_sale db pid sid 0) = false := by
  have hperm := sortBatchesFIFO_perm (db.filter (saleEligible pid sid))
  by_cases hemp : (sortBatchesFIFO (db.filter (saleEligible pid sid))).isEmpty
  · have hfe : (db.filter (saleEligible pid sid)).isEmpty = true := by
      rw [List.isEmpty_iff] at hemp ⊢
      exact (hemp ▸ hperm).nil_eq.symm
    constructor
    · rw [if_pos hfe]
      unfold get_stock_batches_for_sale
      rw [if_pos hemp]
    · unfold get_stock_batches_for_sale allocationTruthy
      rw [if_pos hemp]
  · have hfe : (db.filter (saleEligible pid sid)).isEmpty = false := by
      rcases hf : db.filter (saleEligible pid sid) with _ | ⟨x, xs⟩
      · have h0 : sortBatchesFIFO (db.filter (saleEligible pid sid)) = [] := by
          rw [hf]; rfl
        rw [h0] at hemp
        exact absurd rfl hemp
      · rfl
    have hget : get_stock_batches_for_sale db pid sid 0 = some [] := by
      unfold get_stock_batches_for_sale
      rw [if_neg (by simp [hemp]), fifoDistribute_zero]
      simp
    constructor
    · rw [hget, if_neg (by simp [hfe])]
    · rw [hget]
      rfl

/-- Sum of quantities over the FIFO-eligible batches equals the active-batch
quantity sum, provided no active batch of the product has negative quantity. -/
theorem eligible_sum_eq_activeQuantitySum (pid sid : Nat) :
    ∀ db : List StockBatch,
      (∀ b ∈ db, b.productId = pid → b.storeId = sid → b.isActive = true → 0 ≤ b.quantity) →
      ((db.filter (saleEligible pid sid)).map (·.quantity)).sum =
        activeQuantitySum db pid sid := by
  intro db
  induction db with
  | nil => intro _; rfl
  | cons b rest ih =>
      intro hnn
      have hrest := ih (fun c hc => hnn c (List.mem_cons_of_mem _ hc))
      rw [activeQuantitySum_cons]
      by_cases ha : b.productId = pid ∧ b.storeId = sid ∧ b.isActive = true
      · by_cases hq : 0 < b.quantity
        · have he : saleEligible pid sid b = true := by
            simp [saleEligible, ha.1, ha.2.1, ha.2.2, hq]
          rw [List.filter_cons_of_pos he]
          simp only [List.map_cons, List.sum_cons]
          rw [hrest, if_pos ha]
        · have he : saleEligible pid sid b = false := by
            simp [saleEligible, hq]
          have hz : b.quantity = 0 := by
            have := hnn b (List.mem_cons_self _ _) ha.1 ha.2.1 ha.2.2
            omega
          rw [List.filter_cons_of_neg (by simp [he])]
          rw [hrest, if_pos ha, hz]
          omega
      · have he : saleEligible pid sid b = false := by
          simp only [saleEligible, Bool.and_eq_false_iff]
          by_cases e1 : b.productId = pid <;> by_cases e2 : b.storeId = sid <;>
            by_cases e3 : b.isActive = true <;> simp [e1, e2, e3] at ha ⊢
        rw [List.filter_cons_of_neg (by simp [he])]
        rw [hrest, if_neg ha]
        omega

/-- C2: when the product's active batches sum to less than the requested
quantity, the selection returns `None` (the code's insufficient-stock signal)
with no partial result, and the batch table is returned exactly as read —
the selection mutates nothing. -/
theorem c2_insufficient_stock_all_or_nothing (db : List StockBatch) (pid sid : Nat)
    (qty : Int)
    (hnn : ∀ b ∈ db, b.productId = pid → b.storeId = sid → b.isActive = true →
      0 ≤ b.quantity)
    (hlt : activeQuantitySum db pid sid < qty) :
    get_stock_batches_for_sale_st db pid sid qty = (none, db) := by
  unfold get_stock_batches_for_sale_st
  refine Prod.ext ?_ rfl
  show get_stock_batches_for_sale db pid sid qty = none
  unfold get_stock_batches_for_sale
  by_cases hemp : (sortBatchesFIFO (db.filter (saleEligible pid sid))).isEmpty
  · rw [if_pos hemp]
  · rw [if_neg hemp]
    have hsum : ((sortBatchesFIFO (db.filter (saleEligible pid sid))).map (·.quantity)).sum =
        activeQuantitySum db pid sid := by
      rw [((sortBatchesFIFO_perm _).map (·.quantity)).sum_eq]
      exact eligible_sum_eq_activeQuantitySum pid sid db hnn
    have hpos : ∀ b ∈ sortBatchesFIFO (db.filter (saleEligible pid sid)), 0 < b.quantity := by
      intro b hb
      have := List.of_mem_filter (mem_sortBatchesFIFO.mp hb)
      simp only [saleEligible, Bool.and_eq_true, decide_eq_true_eq] at this
      exact this.2
    have := fifoDistribute_snd_pos _ qty hpos (by omega)
    rw [if_pos this]

/-- C5: `calculate_expected_margin` returns
`retail_profit = retail - landed`, `wholesale_profit = wholesale - landed`,
`expected_margin = retail_profit * retail_ratio + wholesale_profit *
wholesale_ratio`; the ratio pair is (0.7, 0.3) without a product id, equals
the historical retail/wholesale quantity split when history exists, falls
back to (0.7, 0.3) when the historical total quantity is zero; and the
worked example 1500/1200/900 under the default split yields 510. -/
theorem c5_expected_margin (items : List SaleItemRow)
    (retailPrice wholesalePrice landedCost : Money) (productId : Option Nat) :
    (calculate_expected_margin items retailPrice wholesalePrice landedCost
        productId).retailProfit = retailPrice - landedCost ∧
    (calculate_expected_margin items retailPrice wholesalePrice landedCost
        productId).wholesaleProfit = wholesalePrice - landedCost ∧
    (calculate_expected_margin items retailPrice wholesalePrice landedCost
        productId).expectedMargin =
      (retailPrice - landedCost) *
        (calculate_expected_margin items retailPrice wholesalePrice landedCost
          productId).retailRatio +
      (wholesalePrice - landedCost) *
        (calculate_expected_margin items retailPrice wholesalePrice landedCost
          productId).wholesaleRatio ∧
    (productId = none →
      (calculate_expected_margin items retailPrice wholesalePrice landedCost
        productId).retailRatio = 7 / 10 ∧
      (calculate_expected_margin items retailPrice wholesalePrice landedCost
        productId).wholesaleRatio = 3 / 10) ∧
    (∀ pid, productId = some pid → 0 < pid → salesTotalQty items pid = 0 →
      (calculate_expected_margin items retailPrice wholesalePrice landedCost
        productId).retailRatio = 7 / 10 ∧
      (calculate_expected_margin items retailPrice wholesalePrice landedCost
        productId).wholesaleRatio = 3 / 10) ∧
    (∀ pid, productId = some pid → 0 < pid → salesTotalQty items pid ≠ 0 →
      (calculate_expected_margin items retailPrice wholesalePrice landedCost
        productId).retailRatio = salesRetailQty items pid / salesTotalQty items pid ∧
      (calculate_expected_margin items retailPrice wholesalePrice landedCost
        productId).wholesaleRatio = salesWholesaleQty items pid / salesTotalQty items pid) ∧
    (calculate_expected_margin [] 1500 1200 900 none).expectedMargin = 510 := by
  refine ⟨?_, ?_, ?_, ?_, ?_, ?_, ?_⟩
  · rcases productId with _ | pid <;> simp [calculate_expected_margin]
  · rcases productId with _ | pid <;> simp [calculate_expected_margin]
  · rcases productId with _ | pid <;> simp [calculate_expected_margin]
  · rintro rfl
    simp [calculate_expected_margin]
  · rintro pid rfl hpos hzero
    have hne : pid ≠ 0 := by omega
    simp [calculate_expected_margin, hpos, get_sales_stats, hne, hzero, defaultSalesStats]
  · rintro pid rfl hpos hnz
    have hne : pid ≠ 0 := by omega
    simp [calculate_expected_margin, hpos, get_sales_stats, hne, hnz]
  · norm_num [calculate_expected_margin]

/-- C5 witness: the history-driven split at a concrete input.  Two sale lines
for product 7 (3 retail units, 1 wholesale unit) give ratios 3/4 and 1/4. -/
theorem c5_expected_margin_witness :
    (calculate_expected_margin
        [⟨1, 7, 3, 100, false⟩, ⟨2, 7, 1, 90, true⟩] 1500 1200 900
        (some 7)).retailRatio = 3 / 4 ∧
    (calculate_expected_margin [] 1500 1200 900 none).expectedMargin = 510 := by
  constructor
  · have h := (c5_expected_margin
      [⟨1, 7, 3, 100, false⟩, ⟨2, 7, 1, 90, true⟩] 1500 1200 900 (some 7)).2.2.2.2.2.1
      7 rfl (by norm_num) (by norm_num [salesTotalQty])
    rw [h.1]
    norm_num [salesRetailQty, salesTotalQty]
  · exact (c5_expected_margin [] 1500 1200 900 none).2.2.2.2.2.2


/-- Full consumption inside a successful selection: every selected batch
except possibly the last is deducted in full. -/
theorem selection_full_consumption {db : List StockBatch} {pid sid : Nat} {qty : Int}
    {sel : List SelEntry}
    (hsel : get_stock_batches_for_sale db pid sid qty = some sel) :
    ∀ e ∈ sel.dropLast, e.quantityToDeduct = e.currentQuantity := by
  unfold get_stock_batches_for_sale at hsel
  by_cases hemp : (sortBatchesFIFO (db.filter (saleEligible pid sid))).isEmpty
  · simp [hemp] at hsel
  · simp only [if_neg hemp] at hsel
    by_cases hrem : 0 < (fifoDistribute (sortBatchesFIFO (db.filter (saleEligible pid sid))) qty).2
    · simp [hrem] at hsel
    · simp only [if_neg hrem, Option.some.injEq] at hsel
      subst hsel
      exact fifoDistribute_full_consumption _ qty

/-- C1: a successful selection follows the strict (received_date, id)
ascending order — the id being the tie-break on equal dates — as an initial
segment of the FIFO-ordered eligible batches: it is strictly ordered, its ids
form a prefix of the ordered eligible ids, every batch but the last is
consumed in full before the next is touched, and no older eligible batch is
ever skipped in favor of a newer one. -/
theorem c1_fifo_selection_order (db : List StockBatch) (pid sid : Nat) (qty : Int)
    (sel : List SelEntry)
    (hids : (db.map (·.id)).Nodup)
    (hsel : get_stock_batches_for_sale db pid sid qty = some sel) :
    List.Pairwise batchLT (sortBatchesFIFO (db.filter (saleEligible pid sid))) ∧
    List.IsPrefix (sel.map (·.batchId))
      ((sortBatchesFIFO (db.filter (saleEligible pid sid))).map (·.id)) ∧
    (∀ e ∈ sel.dropLast, e.quantityToDeduct = e.currentQuantity) ∧
    (∀ a ∈ db, ∀ b ∈ db, saleEligible pid sid a = true → saleEligible pid sid b = true →
      batchLT a b → b.id ∈ sel.map (·.batchId) → a.id ∈ sel.map (·.batchId)) := by
  have hfilnd : ((db.filter (saleEligible pid sid)).map (·.id)).Nodup :=
    hids.sublist ((List.filter_sublist db).map (·.id))
  have hsortnd : ((sortBatchesFIFO (db.filter (saleEligible pid sid))).map (·.id)).Nodup :=
    (((sortBatchesFIFO_perm _).map _).nodup_iff).mpr hfilnd
  have hpw : List.Pairwise batchLT (sortBatchesFIFO (db.filter (saleEligible pid sid))) :=
    sortBatchesFIFO_pairwise_lt hfilnd
  have htake := selection_ids_take hsel
  refine ⟨hpw, ?_, selection_full_consumption hsel, ?_⟩
  · rw [htake, List.map_take]
    exact List.take_prefix _ _
  · intro a ha b hb hea heb hlt hbid
    have hasort : a ∈ sortBatchesFIFO (db.filter (saleEligible pid sid)) :=
      mem_sortBatchesFIFO.mpr (List.mem_filter.mpr ⟨ha, hea⟩)
    have hbsort : b ∈ sortBatchesFIFO (db.filter (saleEligible pid sid)) :=
      mem_sortBatchesFIFO.mpr (List.mem_filter.mpr ⟨hb, heb⟩)
    rw [htake] at hbid
    obtain ⟨b2, hb2mem, hb2id⟩ := List.mem_map.mp hbid
    have hb2sort : b2 ∈ sortBatchesFIFO (db.filter (saleEligible pid sid)) :=
      (List.take_sublist _ _).mem hb2mem
    have hb2b : b2 = b := List.inj_on_of_nodup_map hsortnd hb2sort hbsort hb2id
    subst hb2b
    have hatake : a ∈ (sortBatchesFIFO (db.filter (saleEligible pid sid))).take sel.length :=
      mem_take_of_rel_of_mem_take (fun x y => batchLT_asymm) _ _ a b2 hpw hasort hb2mem hlt
    rw [htake]
    exact List.mem_map_of_mem _ hatake

/-- Older batch for the C1 witness (received day 1). -/
def c1A : StockBatch :=
  { id := 1, productId := 1, storeId := 1, batchNumber := "B1", quantity := 5
  , buyingPrice := 100, shippingCost := 0, handlingCost := 0, receivedDate := 1
  , expiryDate := none, isActive := true, expectedMargin := some 50
  , actualMargin := none, totalExpectedProfit := some 250, totalActualProfit := none
  , originalQuantity := 5 }

/-- Newer batch for the C1 witness (received day 2). -/
def c1B : StockBatch :=
  { id := 2, productId := 1, storeId := 1, batchNumber := "B2", quantity := 5
  , buyingPrice := 110, shippingCost := 0, handlingCost := 0, receivedDate := 2
  , expiryDate := none, isActive := true, expectedMargin := some 40
  , actualMargin := none, totalExpectedProfit := some 200, totalActualProfit := none
  , originalQuantity := 5 }

/-- Batch table for the C1 witness, stored newest-first. -/
def c1Db : List StockBatch := [c1B, c1A]

/-- The selection `get_stock_batches_for_sale` makes on `c1Db` for 8 units:
all 5 of the older batch, then 3 of the newer. -/
def c1Sel : List SelEntry := [SelEntry.ofBatch c1A 5, SelEntry.ofBatch c1B 3]

theorem c1_fifo_selection_order_witness :
    List.Pairwise batchLT (sortBatchesFIFO (c1Db.filter (saleEligible 1 1))) ∧
    List.IsPrefix (c1Sel.map (·.batchId))
      ((sortBatchesFIFO (c1Db.filter (saleEligible 1 1))).map (·.id)) ∧
    (∀ e ∈ c1Sel.dropLast, e.quantityToDeduct = e.currentQuantity) ∧
    (∀ a ∈ c1Db, ∀ b ∈ c1Db, saleEligible 1 1 a = true → saleEligible 1 1 b = true →
      batchLT a b → b.id ∈ c1Sel.map (·.batchId) → a.id ∈ c1Sel.map (·.batchId)) :=
  c1_fifo_selection_order c1Db 1 1 8 c1Sel (by decide) (by rfl)

/-- C2 witness: one active batch holding 2 units cannot cover a request
for 5. -/
theorem c2_insufficient_stock_witness :
    get_stock_batches_for_sale_st
      [{ id := 1, productId := 1, storeId := 1, batchNumber := "B1", quantity := 2
       , buyingPrice := 100, shippingCost := 0, handlingCost := 0, receivedDate := 1
       , expiryDate := none, isActive := true, expectedMargin := some 50
       , actualMargin := none, totalExpectedProfit := some 100, totalActualProfit := none
       , originalQuantity := 2 }] 1 1 5 =
    (none,
      [{ id := 1, productId := 1, storeId := 1, batchNumber := "B1", quantity := 2
       , buyingPrice := 100, shippingCost := 0, handlingCost := 0, receivedDate := 1
       , expiryDate := none, isActive := true, expectedMargin := some 50
       , actualMargin := none, totalExpectedProfit := some 100, totalActualProfit := none
       , originalQuantity := 2 }]) :=
  c2_insufficient_stock_all_or_nothing _ 1 1 5 (by decide) (by decide)


/-! ### C4 — deduction against a stale selection -/

/-- Live batch row at deduction time: only 1 unit remains. -/
def c4Batch : StockBatch :=
  { id := 1, productId := 1, storeId := 1, batchNumber := "B1", quantity := 1
  , buyingPrice := 110, shippingCost := 0, handlingCost := 0, receivedDate := 1
  , expiryDate := none, isActive := true, expectedMargin := some 40
  , actualMargin := none, totalExpectedProfit := some 200, totalActualProfit := none
  , originalQuantity := 5 }

/-- Selection entry produced earlier, when the batch still held 5 units. -/
def c4Entry : SelEntry :=
  { batchId := 1, batchNumber := "B1", quantityToDeduct := 5, currentQuantity := 5
  , landedCost := 110, buyingPrice := 110, shippingCost := 0, handlingCost := 0
  , expectedMargin := some 40, originalQuantity := 5 }

/-- C4: `update_stock_batches_after_sale` does not re-validate the remaining
quantity.  Applied to a batch whose live quantity (1) is below the selection's
`quantity_to_deduct` (5), it does not fail — its return type has no failure
outcome at all — and instead overwrites the row from the stale snapshot
(`quantity = 5 - 5 = 0`) and reports the full profit `(150 - 110) * 5 = 200`,
silently losing the concurrent change instead of raising `StaleSelection`. -/
theorem c4_no_stale_revalidation :
    c4Batch.quantity < c4Entry.quantityToDeduct ∧
    (update_stock_batches_after_sale [c4Batch] [c4Entry] 150).1 =
      [{ c4Batch with quantity := 0, isActive := false, actualMargin := some 40
                    , totalActualProfit := some 200 }] ∧
    (update_stock_batches_after_sale [c4Batch] [c4Entry] 150).2 = 200 := by
  refine ⟨by decide, ?_, ?_⟩
  · simp [update_stock_batches_after_sale, applyDeduction, c4Batch, c4Entry]
    norm_num
  · simp [update_stock_batches_after_sale, c4Entry]
    norm_num

/-! ### C6 — unit-hierarchy value resolution -/

/-- Root of the C6 counterexample hierarchy: no explicit values. -/
def c6Carton : HierEntry :=
  { unit := "carton", bigUnit := none, relation := 1, hasValues := false
  , stockQuantity := none, buyingPrice := none, shippingCost := none
  , handlingCost := none, lowStockThreshold := none }

/-- Middle unit: carries the explicit buying price (100), 10 per carton. -/
def c6Bunda : HierEntry :=
  { unit := "bunda", bigUnit := some "carton", relation := 10, hasValues := true
  , stockQuantity := none, buyingPrice := some 100, shippingCost := none
  , handlingCost := none, lowStockThreshold := none }

/-- Leaf unit: no explicit values, 12 per bunda. -/
def c6Single : HierEntry :=
  { unit := "single", bigUnit := some "bunda", relation := 12, hasValues := false
  , stockQuantity := none, buyingPrice := none, shippingCost := none
  , handlingCost := none, lowStockThreshold := none }

def c6Hier : Hierarchy := [c6Carton, c6Bunda, c6Single]

/-- C6 counterexample: the value-supplying unit is `bunda` (buying price 100,
12 singles per bunda), yet the resolver prices a `single` at
`round(100 / (12 * 10), 2) = 0.83` — dividing by the relation product over the
WHOLE path down from the base `carton`, not by the relation 12 between
`single` and the supplying `bunda`, which the claim requires
(`100 / 12 = 8.33…`, `8.33` after rounding). -/
theorem c6_counterexample_cumulative_to_base :
    (resolveUnitValues c6Hier "single" ExplicitFields.empty).1.buyingPrice = 83 / 100 ∧
    round2 ((100 : ℚ) / 12) = 833 / 100 ∧
    (83 / 100 : ℚ) ≠ 100 / 12 ∧ (83 / 100 : ℚ) ≠ 833 / 100 := by
  have hres : resolveUnitValues c6Hier "single" ExplicitFields.empty =
      (calculate_child_values ExplicitFields.empty c6Bunda
        (calculate_cumulative_relation (build_hierarchy_path c6Hier "single") "single"),
       true) := rfl
  have hcum : calculate_cumulative_relation (build_hierarchy_path c6Hier "single") "single"
      = 120 := by
    rw [show build_hierarchy_path c6Hier "single" =
        [⟨"single", 12, some "bunda"⟩, ⟨"bunda", 10, some "carton"⟩, ⟨"carton", 1, none⟩]
      from rfl]
    unfold calculate_cumulative_relation
    norm_num [List.findIdx?]
  refine ⟨?_, ?_, by norm_num, by norm_num⟩
  · rw [hres, hcum]
    show round2 ((100 : ℚ) / 120) = 83 / 100
    unfold round2 roundHalfEven
    norm_num
  · unfold round2 roundHalfEven
    norm_num

/-- A two-level hierarchy: a root with explicit cost `C` and quantity `Q` and
a child with relation `R` and no explicit values. -/
def twoLevelHier (C Q R : ℚ) : Hierarchy :=
  [{ unit := "carton", bigUnit := none, relation := 1, hasValues := true
   , stockQuantity := some Q, buyingPrice := some C, shippingCost := none
   , handlingCost := none, lowStockThreshold := none },
   { unit := "piece", bigUnit := some "carton", relation := R, hasValues := false
   , stockQuantity := none, buyingPrice := none, shippingCost := none
   , handlingCost := none, lowStockThreshold := none }]

/-- A three-level hierarchy whose middle unit supplies the cost `C`;
`R1` singles per bunda, `R2` bundas per carton. -/
def threeLevelHier (C R1 R2 : ℚ) : Hierarchy :=
  [{ unit := "carton", bigUnit := none, relation := 1, hasValues := false
   , stockQuantity := none, buyingPrice := none, shippingCost := none
   , handlingCost := none, lowStockThreshold := none },
   { unit := "bunda", bigUnit := some "carton", relation := R2, hasValues := true
   , stockQuantity := none, buyingPrice := some C, shippingCost := none
   , handlingCost := none, lowStockThreshold := none },
   { unit := "single", bigUnit := some "bunda", relation := R1, hasValues := false
   , stockQuantity := none, buyingPrice := none, shippingCost := none
   , handlingCost := none, lowStockThreshold := none }]

/-- C6 (amended): the resolver fills a missing cost field with the supplying
unit's value divided by the cumulative relation from the target to the BASE
of its hierarchy path (not to the supplying unit), rounded to two decimals,
and a missing quantity field with the supplying value multiplied by that same
cumulative relation.  For a root with explicit cost `C` and quantity `Q` and
a direct child with relation `R` this gives child cost `round2 (C / R)` and
child quantity `Q * R`; with a value-supplying middle unit the divisor is the
product `R1 * R2` over the whole path.  (The positivity hypotheses record
that the supplied values are the ones that set `has_values` during map
construction.) -/
theorem c6_amended_resolver (C Q R C3 R1 R2 : ℚ)
    (_hC : 0 < C) (_hQ : 0 < Q) (_hC3 : 0 < C3) :
    (resolveUnitValues (twoLevelHier C Q R) "piece" ExplicitFields.empty).1.buyingPrice =
      round2 (C / R) ∧
    (resolveUnitValues (twoLevelHier C Q R) "piece" ExplicitFields.empty).1.stockQuantity =
      Q * R ∧
    (resolveUnitValues (twoLevelHier C Q R) "piece" ExplicitFields.empty).2 = true ∧
    (resolveUnitValues (threeLevelHier C3 R1 R2) "single"
        ExplicitFields.empty).1.buyingPrice = round2 (C3 / (R1 * R2)) := by
  have hres2 : resolveUnitValues (twoLevelHier C Q R) "piece" ExplicitFields.empty =
      (calculate_child_values ExplicitFields.empty
        { unit := "carton", bigUnit := none, relation := 1, hasValues := true
        , stockQuantity := some Q, buyingPrice := some C, shippingCost := none
        , handlingCost := none, lowStockThreshold := none }
        (calculate_cumulative_relation (build_hierarchy_path (twoLevelHier C Q R) "piece")
          "piece"), true) := rfl
  have hcum2 : calculate_cumulative_relation
      (build_hierarchy_path (twoLevelHier C Q R) "piece") "piece" = R := by
    rw [show build_hierarchy_path (twoLevelHier C Q R) "piece" =
        [⟨"piece", R, some "carton"⟩, ⟨"carton", 1, none⟩] from rfl]
    unfold calculate_cumulative_relation
    simp [List.findIdx?]
  have hres3 : resolveUnitValues (threeLevelHier C3 R1 R2) "single" ExplicitFields.empty =
      (calculate_child_values ExplicitFields.empty
        { unit := "bunda", bigUnit := some "carton", relation := R2, hasValues := true
        , stockQuantity := none, buyingPrice := some C3, shippingCost := none
        , handlingCost := none, lowStockThreshold := none }
        (calculate_cumulative_relation
          (build_hierarchy_path (threeLevelHier C3 R1 R2) "single") "single"), true) := rfl
  have hcum3 : calculate_cumulative_relation
      (build_hierarchy_path (threeLevelHier C3 R1 R2) "single") "single" = R1 * R2 := by
    rw [show build_hierarchy_path (threeLevelHier C3 R1 R2) "single" =
        [⟨"single", R1, some "bunda"⟩, ⟨"bunda", R2, some "carton"⟩, ⟨"carton", 1, none⟩]
      from rfl]
    unfold calculate_cumulative_relation
    simp [List.findIdx?]
  rw [hres2, hcum2, hres3, hcum3]
  exact ⟨rfl, rfl, rfl, rfl⟩

/-- C6 amended witness: carton of 4 at cost 100, 25 pieces per carton →
piece cost `round2 (100/25) = 4`, piece quantity `4 * 25 = 100`. -/
theorem c6_amended_resolver_witness :
    (resolveUnitValues (twoLevelHier 100 4 25) "piece" ExplicitFields.empty).1.buyingPrice =
      round2 ((100 : ℚ) / 25) ∧
    (resolveUnitValues (twoLevelHier 100 4 25) "piece" ExplicitFields.empty).1.stockQuantity =
      (4 : ℚ) * 25 ∧
    (resolveUnitValues (twoLevelHier 100 4 25) "piece" ExplicitFields.empty).2 = true ∧
    (resolveUnitValues (threeLevelHier 100 12 10) "single"
        ExplicitFields.empty).1.buyingPrice = round2 ((100 : ℚ) / (12 * 10)) :=
  c6_amended_resolver 100 4 25 100 12 10 (by norm_num) (by norm_num) (by norm_num)

/-! ### C7 — depletion finalization -/

/-- A fresh batch of 10 units, landed cost 100, no sale data yet. -/
def c7Batch : StockBatch :=
  { id := 1, productId := 1, storeId := 1, batchNumber := "B1", quantity := 10
  , buyingPrice := 100, shippingCost := 0, handlingCost := 0, receivedDate := 1
  , expiryDate := none, isActive := true, expectedMargin := some 60
  , actualMargin := none, totalExpectedProfit := some 600, totalActualProfit := none
  , originalQuantity := 10 }

/-- `c7Batch` after the first sale round (5 units at price 150). -/
def c7Mid : StockBatch := applyDeduction 150 (SelEntry.ofBatch c7Batch 5) c7Batch

/-- C7 counterexample: deplete `c7Batch` with two sales — 5 units at 150
(margin 50) then 5 units at 130 (margin 30).  At the moment the batch turns
inactive its `total_actual_profit` is the per-deduction sum
`5*50 + 5*30 = 400`, but its `actual_margin` is 30, the margin of the LAST
deduction — not the average `(50 + 30) / 2 = 40` of the per-sale realized
margins that the claim asserts is written at the transition to inactive. -/
theorem c7_counterexample_last_margin_not_average :
    (runSales 1 1 [(5, 150), (5, 130)] [c7Batch]).map (List.map (·.actualMargin)) =
      some [some 30] ∧
    (runSales 1 1 [(5, 150), (5, 130)] [c7Batch]).map (List.map (·.totalActualProfit)) =
      some [some 400] ∧
    (runSales 1 1 [(5, 150), (5, 130)] [c7Batch]).map (List.map (·.isActive)) =
      some [false] ∧
    ((150 - (100 : ℚ)) + (130 - 100)) / 2 = 40 ∧ (30 : ℚ) ≠ 40 := by
  have hrun : runSales 1 1 [(5, 150), (5, 130)] [c7Batch] =
      some [applyDeduction 130 (SelEntry.ofBatch c7Mid 5) c7Mid] := rfl
  rw [hrun]
  refine ⟨?_, ?_, ?_, by norm_num, by norm_num⟩
  · simp [applyDeduction, SelEntry.ofBatch, c7Mid, c7Batch, StockBatch.landedCost]
    norm_num
  · simp [applyDeduction, SelEntry.ofBatch, c7Mid, c7Batch, StockBatch.landedCost]
    norm_num
  · simp [applyDeduction, SelEntry.ofBatch, c7Mid, c7Batch, StockBatch.landedCost]

/-! ### C3 / C8 — import-path counterexamples -/

/-- A depleted, inactive batch row. -/
def c3DeadBatch : StockBatch :=
  { id := 1, productId := 1, storeId := 1, batchNumber := "B1", quantity := 0
  , buyingPrice := 100, shippingCost := 0, handlingCost := 0, receivedDate := 1
  , expiryDate := none, isActive := false, expectedMargin := some 50
  , actualMargin := some 50, totalExpectedProfit := some 250
  , totalActualProfit := some 250, originalQuantity := 5 }

/-- Product with zero stock whose one batch is depleted and inactive. -/
def c3State : InventoryState :=
  { products := [{ id := 1, name := "X", storeId := 1, stockQuantity := 0
                 , lowStockThreshold := 5 }]
  , batches := [c3DeadBatch] }

/-- Import row putting 10 units back on batch `B1`. -/
def c3Row : ImportRowData :=
  { stockQuantity := 10, buyingPrice := 100, shippingCost := 0, handlingCost := 0
  , retailPrice := 150, wholesalePrice := 130, expiryDate := none, batchName := "B1"
  , lowStockThreshold := 5 }

/-- C3 counterexample: the invariant holds before the import/update, the
update succeeds, and the invariant is broken afterwards — the updated batch
stays `is_active = 0` with quantity 10, while the product's stock is set to
the sum over ALL batches (10), so active-batch sum (0) ≠ stock_quantity (10). -/
theorem c3_counterexample_inactive_update :
    stockInvariant c3State ∧
    (update_existing_batch_transactional c3State 1 "B1" 1 c3Row true).2 = true ∧
    ¬ stockInvariant (update_existing_batch_transactional c3State 1 "B1" 1 c3Row true).1 := by
  refine ⟨by decide, by rfl, by decide⟩

/-- A live batch row holding 5 units. -/
def c8LiveBatch : StockBatch :=
  { id := 1, productId := 1, storeId := 1, batchNumber := "B1", quantity := 5
  , buyingPrice := 100, shippingCost := 0, handlingCost := 0, receivedDate := 1
  , expiryDate := none, isActive := true, expectedMargin := some 50
  , actualMargin := none, totalExpectedProfit := some 250
  , totalActualProfit := none, originalQuantity := 5 }

/-- Product with 5 units in one live batch. -/
def c8State : InventoryState :=
  { products := [{ id := 1, name := "X", storeId := 1, stockQuantity := 5
                 , lowStockThreshold := 5 }]
  , batches := [c8LiveBatch] }

/-- Import row raising the batch to 10 units. -/
def c8Row : ImportRowData :=
  { stockQuantity := 10, buyingPrice := 100, shippingCost := 0, handlingCost := 0
  , retailPrice := 150, wholesalePrice := 130, expiryDate := none, batchName := "B1"
  , lowStockThreshold := 5 }

/-- C8 counterexample: the import batch-update path overwrites the existing
batch row's quantity in place — here it INCREASES it from 5 to 10 on the same
row (same id), no new batch row is created. -/
theorem c8_counterexample_inplace_increase :
    c8State.batches.map (·.quantity) = [5] ∧
    (update_existing_batch_transactional c8State 1 "B1" 1 c8Row true).1.batches.map
      (·.quantity) = [10] ∧
    (update_existing_batch_transactional c8State 1 "B1" 1 c8Row true).1.batches.map
      (·.id) = c8State.batches.map (·.id) ∧
    ((update_existing_batch_transactional c8State 1 "B1" 1 c8Row true).1.batches.length =
      c8State.batches.length) := by
  refine ⟨by decide, by decide, by decide, by decide⟩

/-! ### C9 — the forward-only saga -/

/-- C9: when the inventory step raises after the sales-partition commit,
`make_sale` returns with the sale header, sale items and batch allocations
still committed — nothing is rolled back — and the inventory, debts and
other-payments partitions untouched; the outcome names the failed step. -/
theorem c9_saga_no_rollback (s : SystemState) (storeId userId saleId : Nat)
    (cart : List CartItem) (pm : String) (debtorInfo : Option (String × String))
    (otherDescription : Option String) :
    make_sale_txn s storeId userId saleId cart pm debtorInfo otherDescription false true =
      ({ s with salesDb := recordSaleCommit s.salesDb saleId storeId userId pm cart },
        SaleOutcome.failedInventory saleId) ∧
    (recordSaleCommit s.salesDb saleId storeId userId pm cart).sales =
      s.salesDb.sales ++
        [{ id := saleId, storeId := storeId, userId := userId
         , totalPrice := (cart.map (·.totalPrice)).sum, paymentMethod := pm }] ∧
    (recordSaleCommit s.salesDb saleId storeId userId pm cart).saleItems =
      s.salesDb.saleItems ++ cart.map
        (fun it => { saleId := saleId, productId := it.productId, quantity := it.quantity
                   , unitPrice := it.unitPrice, isWholesale := it.isWholesale }) ∧
    (make_sale_txn s storeId userId saleId cart pm debtorInfo otherDescription
        false true).1.inventory = s.inventory ∧
    (make_sale_txn s storeId userId saleId cart pm debtorInfo otherDescription
        false true).1.debtsDb = s.debtsDb ∧
    (make_sale_txn s storeId userId saleId cart pm debtorInfo otherDescription
        false true).1.otherPaymentsDb = s.otherPaymentsDb :=
  ⟨rfl, rfl, rfl, rfl, rfl, rfl⟩


/-! ### C7 — amended depletion finalization -/

theorem finalizeBatch_of_total_some {b : StockBatch} {x : Money}
    (h : b.totalActualProfit = some x) : finalizeBatch b = b := by
  unfold finalizeBatch
  by_cases hq : b.quantity = 0
  · rw [if_pos hq, h]
  · rw [if_neg hq]

theorem single_batch_selection (b : StockBatch) (q : Int) (hact : b.isActive = true)
    (hq0 : 0 < q) (hqle : q ≤ b.quantity) :
    get_stock_batches_for_sale [b] b.productId b.storeId q = some [SelEntry.ofBatch b q] := by
  have helig : saleEligible b.productId b.storeId b = true := by
    simp [saleEligible, hact]; omega
  have hfil : List.filter (saleEligible b.productId b.storeId) [b] = [b] := by
    simp [helig]
  have hfifo : fifoDistribute [b] q = ([SelEntry.ofBatch b q], 0) := by
    simp [fifoDistribute, show ¬ q ≤ 0 by omega, show min b.quantity q = q by omega]
  unfold get_stock_batches_for_sale
  simp only [hfil, show sortBatchesFIFO [b] = [b] from rfl, hfifo]
  simp

def deductedBatch (b : StockBatch) (q : Int) (p : Money) : StockBatch :=
  applyDeduction p (SelEntry.ofBatch b q) b

theorem deductedBatch_eq (b : StockBatch) (q : Int) (p : Money) :
    deductedBatch b q p =
      { b with quantity := b.quantity - q
             , isActive := decide (0 < b.quantity - q)
             , actualMargin := some (p - b.landedCost)
             , totalActualProfit :=
                 some (b.totalActualProfit.getD 0 + (p - b.landedCost) * (q : ℚ)) } := by
  unfold deductedBatch applyDeduction
  split
  · rfl
  · next h => exact absurd rfl h

theorem single_round (b : StockBatch) (q : Int) (p : Money) :
    (sale_item_batches [b] [SelEntry.ofBatch b q] p).1 = [deductedBatch b q p] := by
  show applyFinalizations (update_stock_batches_after_sale [b] [SelEntry.ofBatch b q] p).1
      [SelEntry.ofBatch b q] = [deductedBatch b q p]
  have h1 : (update_stock_batches_after_sale [b] [SelEntry.ofBatch b q] p).1 =
      [deductedBatch b q p] := rfl
  rw [h1]
  unfold applyFinalizations
  simp only [List.foldl_cons, List.foldl_nil]
  by_cases h : (SelEntry.ofBatch b q).currentQuantity - (SelEntry.ofBatch b q).quantityToDeduct ≤ 0
  · rw [if_pos h]
    unfold calculate_batch_profit
    simp only [List.map_cons, List.map_nil]
    rw [if_pos (show (deductedBatch b q p).id = (SelEntry.ofBatch b q).batchId from
      applyDeduction_id p _ b)]
    rw [finalizeBatch_of_total_some (x := b.totalActualProfit.getD 0 + (p - b.landedCost) * (q : ℚ))
      (by rw [deductedBatch_eq])]
  · rw [if_neg h]

theorem deductedBatch_fields (b : StockBatch) (q : Int) (p : Money) :
    (deductedBatch b q p).id = b.id ∧ (deductedBatch b q p).productId = b.productId ∧
    (deductedBatch b q p).storeId = b.storeId ∧
    (deductedBatch b q p).landedCost = b.landedCost ∧
    (deductedBatch b q p).expectedMargin = b.expectedMargin ∧
    (deductedBatch b q p).originalQuantity = b.originalQuantity := by
  rw [deductedBatch_eq]
  exact ⟨rfl, rfl, rfl, rfl, rfl, rfl⟩

theorem calculate_batch_profit_self_of_total_some {b : StockBatch} {x : Money}
    (h : b.totalActualProfit = some x) : calculate_batch_profit [b] b.id = [b] := by
  unfold calculate_batch_profit
  simp only [List.map_cons, List.map_nil]
  split
  · rw [finalizeBatch_of_total_some h]
  · rfl

theorem int_list_sum_pos (l : List Int) (hpos : ∀ x ∈ l, 0 < x) (hne : l ≠ []) :
    0 < l.sum := by
  cases l with
  | nil => exact absurd rfl hne
  | cons x xs =>
      have h1 : 0 < x := hpos x (List.mem_cons_self _ _)
      have h2 : 0 ≤ xs.sum := List.sum_nonneg (fun y hy =>
        le_of_lt (hpos y (List.mem_cons_of_mem _ hy)))
      simp only [List.sum_cons]
      omega

theorem runSales_depletes :
    ∀ (steps : List (Int × Money)) (b : StockBatch),
      b.isActive = true →
      steps ≠ [] →
      (∀ st ∈ steps, 0 < st.1) →
      (steps.map Prod.fst).sum = b.quantity →
      ∃ b2, runSales b.productId b.storeId steps [b] = some [b2] ∧
        b2.quantity = 0 ∧ b2.isActive = false ∧
        b2.totalActualProfit = some (b.totalActualProfit.getD 0 +
          (steps.map (fun st => (st.2 - b.landedCost) * (st.1 : ℚ))).sum) ∧
        (∃ last, steps.getLast? = some last ∧
          b2.actualMargin = some (last.2 - b.landedCost)) ∧
        b2.id = b.id ∧
        calculate_batch_profit [b2] b2.id = [b2] := by
  intro steps
  induction steps with
  | nil => intro b _ hne; exact absurd rfl hne
  | cons st rest ih =>
      intro b hact hne hpos hsum
      obtain ⟨q, p⟩ := st
      simp only [List.map_cons, List.sum_cons] at hsum
      have hq0 : 0 < q := hpos (q, p) (List.mem_cons_self _ _)
      have hrest_nonneg : 0 ≤ (rest.map Prod.fst).sum :=
        List.sum_nonneg (fun y hy => by
          obtain ⟨st2, hst2, rfl⟩ := List.mem_map.mp hy
          exact le_of_lt (hpos st2 (List.mem_cons_of_mem _ hst2)))
      have hqle : q ≤ b.quantity := by omega
      have hsel := single_batch_selection b q hact hq0 hqle
      have hround := single_round b q p
      obtain ⟨hid, hprod, hstore, hlc, hem, horig⟩ := deductedBatch_fields b q p
      have hstep : runSales b.productId b.storeId ((q, p) :: rest) [b] =
          runSales b.productId b.storeId rest [deductedBatch b q p] := by
        show (match get_stock_batches_for_sale [b] b.productId b.storeId q with
              | none => none
              | some sel => runSales b.productId b.storeId rest
                  (sale_item_batches [b] sel p).1) = _
        rw [hsel]
        show runSales b.productId b.storeId rest
          (sale_item_batches [b] [SelEntry.ofBatch b q] p).1 = _
        rw [hround]
      cases rest with
      | nil =>
          have hq : q = b.quantity := by simpa using hsum
          refine ⟨deductedBatch b q p, ?_, ?_, ?_, ?_, ?_, hid, ?_⟩
          · rw [hstep]; rfl
          · rw [deductedBatch_eq]; simp; omega
          · rw [deductedBatch_eq]; simp; omega
          · rw [deductedBatch_eq]; simp
          · exact ⟨(q, p), rfl, by rw [deductedBatch_eq]⟩
          · exact calculate_batch_profit_self_of_total_some (by rw [deductedBatch_eq])
      | cons r2 rs =>
          have hrestne : (r2 :: rs) ≠ [] := by simp
          have hrestsum_pos : 0 < ((r2 :: rs).map Prod.fst).sum := by
            refine int_list_sum_pos _ ?_ (by simp)
            intro x hx
            obtain ⟨st2, hst2, rfl⟩ := List.mem_map.mp hx
            exact hpos st2 (List.mem_cons_of_mem _ hst2)
          have hact' : (deductedBatch b q p).isActive = true := by
            rw [deductedBatch_eq]
            simp only [decide_eq_true_eq]
            omega
          have hsum' : (((r2 :: rs)).map Prod.fst).sum = (deductedBatch b q p).quantity := by
            rw [deductedBatch_eq]
            simp only []
            omega
          have hpos' : ∀ st2 ∈ r2 :: rs, 0 < st2.1 :=
            fun st2 hst2 => hpos st2 (List.mem_cons_of_mem _ hst2)
          have := ih (deductedBatch b q p) hact' hrestne hpos' hsum'
          rw [hprod, hstore] at this
          obtain ⟨b2, hrun, hq2, hia2, htp2, ⟨last, hlast, ham2⟩, hid2, hfin2⟩ := this
          refine ⟨b2, ?_, hq2, hia2, ?_, ?_, hid2.trans hid, hfin2⟩
          · rw [hstep, hrun]
          · rw [htp2]
            rw [show (deductedBatch b q p).totalActualProfit =
                some (b.totalActualProfit.getD 0 + (p - b.landedCost) * (q : ℚ)) by
              rw [deductedBatch_eq]]
            simp only [Option.getD_some, hlc, List.map_cons, List.sum_cons]
            exact congrArg some (by ring)
          · refine ⟨last, ?_, by rw [ham2, hlc]⟩
            rw [List.getLast?_cons_cons]
            exact hlast


/-- C7 (amended): depleting a batch through a sequence of sales leaves
`is_active = 0` and `total_actual_profit` equal to the accumulated sum of
per-deduction realized profits, with `actual_margin` equal to the margin of
the MOST RECENT deduction (not an average), and the finalization pass then
changes nothing; only a depleted batch with no deduction data at all
(`total_actual_profit` NULL) is finalized with the fallback margin
(`actual_margin`, else `expected_margin`) times `original_quantity`. -/
theorem c7_amended_depletion :
    (∀ (b : StockBatch) (steps : List (Int × Money)),
      b.isActive = true → steps ≠ [] → (∀ st ∈ steps, 0 < st.1) →
      (steps.map Prod.fst).sum = b.quantity →
      ∃ b2, runSales b.productId b.storeId steps [b] = some [b2] ∧
        b2.quantity = 0 ∧ b2.isActive = false ∧
        b2.totalActualProfit = some (b.totalActualProfit.getD 0 +
          (steps.map (fun st => (st.2 - b.landedCost) * (st.1 : ℚ))).sum) ∧
        (∃ last, steps.getLast? = some last ∧
          b2.actualMargin = some (last.2 - b.landedCost)) ∧
        b2.id = b.id ∧
        calculate_batch_profit [b2] b2.id = [b2]) ∧
    (∀ (b : StockBatch) (m : Money), b.quantity = 0 → b.totalActualProfit = none →
      b.actualMargin.orElse (fun _ => b.expectedMargin) = some m →
      calculate_batch_profit [b] b.id =
        [{ b with actualMargin := some m
                , totalActualProfit := some (m * (b.originalQuantity : ℚ)) }]) := by
  constructor
  · intro b steps h1 h2 h3 h4
    exact runSales_depletes steps b h1 h2 h3 h4
  · intro b m hq htot hor
    unfold calculate_batch_profit
    simp only [List.map_cons, List.map_nil]
    split
    · unfold finalizeBatch
      rw [if_pos hq, htot, hor]
    · next h => exact absurd (by trivial) h

/-- Batch for the C7 amended witness: 10 units, landed cost 100. -/
def c7WBatch : StockBatch :=
  { id := 3, productId := 2, storeId := 1, batchNumber := "W1", quantity := 10
  , buyingPrice := 100, shippingCost := 0, handlingCost := 0, receivedDate := 4
  , expiryDate := none, isActive := true, expectedMargin := some 60
  , actualMargin := none, totalExpectedProfit := some 600, totalActualProfit := none
  , originalQuantity := 10 }

/-- Depleted batch with no deduction data for the C7 fallback witness. -/
def c7WDead : StockBatch :=
  { id := 4, productId := 2, storeId := 1, batchNumber := "W2", quantity := 0
  , buyingPrice := 100, shippingCost := 0, handlingCost := 0, receivedDate := 4
  , expiryDate := none, isActive := false, expectedMargin := some 50
  , actualMargin := none, totalExpectedProfit := some 250, totalActualProfit := none
  , originalQuantity := 5 }

theorem c7_amended_depletion_witness :
    (∃ b2, runSales c7WBatch.productId c7WBatch.storeId [(10, 150)] [c7WBatch] =
        some [b2] ∧
      b2.quantity = 0 ∧ b2.isActive = false ∧
      b2.totalActualProfit = some (c7WBatch.totalActualProfit.getD 0 +
        (([((10 : Int), (150 : Money))]).map
          (fun st => (st.2 - c7WBatch.landedCost) * (st.1 : ℚ))).sum) ∧
      (∃ last, ([((10 : Int), (150 : Money))]).getLast? = some last ∧
        b2.actualMargin = some (last.2 - c7WBatch.landedCost)) ∧
      b2.id = c7WBatch.id ∧ calculate_batch_profit [b2] b2.id = [b2]) ∧
    calculate_batch_profit [c7WDead] c7WDead.id =
      [{ c7WDead with actualMargin := some 50
                    , totalActualProfit := some ((50 : ℚ) * (c7WDead.originalQuantity : ℚ)) }] :=
  ⟨c7_amended_depletion.1 c7WBatch [(10, 150)] rfl (by simp)
      (by intro st hst; rw [List.mem_singleton] at hst; subst hst; norm_num) (by decide),
   c7_amended_depletion.2 c7WDead 50 rfl rfl rfl⟩


/-! ### C3 / C8 — amended theorems -/

theorem totalBatchQuantity_cons (b : StockBatch) (rest : List StockBatch) (pid sid : Nat) :
    totalBatchQuantity (b :: rest) pid sid =
      (if b.productId = pid ∧ b.storeId = sid then b.quantity else 0) +
        totalBatchQuantity rest pid sid := by
  simp only [totalBatchQuantity, List.filter_cons]
  by_cases h : b.productId = pid ∧ b.storeId = sid
  · simp [h.1, h.2]
  · have : (b.productId == pid && b.storeId == sid) = false := by
      by_cases e1 : b.productId = pid <;> by_cases e2 : b.storeId = sid <;>
        simp [e1, e2] at h ⊢
    simp [this, h]

theorem total_eq_active_of_inactive_zero (pid sid : Nat) :
    ∀ db : List StockBatch,
      (∀ b ∈ db, b.productId = pid → b.storeId = sid → b.isActive = false →
        b.quantity = 0) →
      totalBatchQuantity db pid sid = activeQuantitySum db pid sid := by
  intro db
  induction db with
  | nil => intro _; rfl
  | cons b rest ih =>
      intro h
      rw [totalBatchQuantity_cons, activeQuantitySum_cons,
        ih (fun c hc => h c (List.mem_cons_of_mem _ hc))]
      by_cases hps : b.productId = pid ∧ b.storeId = sid
      · rcases hact : b.isActive with _ | _
        · have hz : b.quantity = 0 := h b (List.mem_cons_self _ _) hps.1 hps.2 hact
          rw [if_pos hps, if_neg (fun hc => Bool.false_ne_true hc.2.2)]
          omega
        · rw [if_pos hps, if_pos ⟨hps.1, hps.2, rfl⟩]
      · rw [if_neg hps, if_neg (fun hc => hps ⟨hc.1, hc.2.1⟩)]

theorem activeQuantitySum_map_preserve_filter (f : StockBatch → StockBatch) (pid sid : Nat) :
    ∀ db : List StockBatch,
      (∀ b ∈ db, (f b).productId = b.productId ∧ (f b).storeId = b.storeId ∧
        (f b).isActive = b.isActive) →
      (∀ b ∈ db, b.productId = pid → b.storeId = sid → (f b).quantity = b.quantity) →
      activeQuantitySum (db.map f) pid sid = activeQuantitySum db pid sid := by
  intro db
  induction db with
  | nil => intro _ _; rfl
  | cons b rest ih =>
      intro hf hq
      obtain ⟨h1, h2, h3⟩ := hf b (List.mem_cons_self _ _)
      simp only [List.map_cons]
      rw [activeQuantitySum_cons, activeQuantitySum_cons, h1, h2, h3,
        ih (fun c hc => hf c (List.mem_cons_of_mem _ hc))
          (fun c hc => hq c (List.mem_cons_of_mem _ hc))]
      by_cases hps : b.productId = pid ∧ b.storeId = sid ∧ b.isActive = true
      · rw [if_pos hps, if_pos hps, hq b (List.mem_cons_self _ _) hps.1 hps.2.1]
      · rw [if_neg hps, if_neg hps]

theorem selection_honest_strong {db : List StockBatch} {pid sid : Nat} {qty : Int}
    {sel : List SelEntry}
    (hsel : get_stock_batches_for_sale db pid sid qty = some sel) :
    ∀ e ∈ sel, ∃ b0 ∈ db, b0.id = e.batchId ∧ e.currentQuantity = b0.quantity ∧
      0 ≤ e.quantityToDeduct ∧ e.quantityToDeduct ≤ b0.quantity ∧
      b0.productId = pid ∧ b0.storeId = sid ∧ b0.isActive = true := by
  intro e he
  obtain ⟨b, hb, heq, hprod, hstore, hact, hbq, hd0, hdle⟩ := selection_honest hsel e he
  refine ⟨b, hb, ?_, ?_, by omega, hdle, hprod, hstore, hact⟩
  · rw [heq]; rfl
  · rw [heq]; rfl

theorem sale_item_batches_fst (db : List StockBatch) (sel : List SelEntry) (p : Money) :
    (sale_item_batches db sel p).1 = applyFinalizations (updDB p sel db) sel := by
  show applyFinalizations (update_stock_batches_after_sale db sel p).1 sel = _
  rw [update_stock_batches_after_sale_fst]

/-- C3 (amended): the active-batch-sum invariant
`sum(quantity over active batches) = stock_quantity` is preserved by every
successful sale; the import/update path recomputes `stock_quantity` as the
sum over ALL batches, so it preserves the invariant exactly when every
inactive batch of the product carries zero quantity after the update. -/
theorem c3_amended_invariant :
    (∀ (s : InventoryState) (pid sid : Nat) (qty : Int) (price : Money) (s2 : InventoryState),
      (s.batches.map (·.id)).Nodup →
      (∀ p ∈ s.products, p.id = pid → p.storeId = sid) →
      0 < qty → stockInvariant s →
      make_sale_item s pid sid qty price = some s2 →
      stockInvariant s2) ∧
    (∀ (s : InventoryState) (pid : Nat) (batchNumber : String) (sid : Nat)
        (d : ImportRowData) (updateOriginal : Bool) (s2 : InventoryState),
      (∀ p ∈ s.products, p.id = pid → p.storeId = sid) →
      stockInvariant s →
      update_existing_batch_transactional s pid batchNumber sid d updateOriginal =
        (s2, true) →
      (∀ b ∈ s2.batches, b.productId = pid → b.storeId = sid → b.isActive = false →
        b.quantity = 0) →
      stockInvariant s2) := by
  constructor
  · intro s pid sid qty price s2 hnd hps hqty hinv hsale
    unfold make_sale_item at hsale
    rcases hget : get_stock_batches_for_sale s.batches pid sid qty with _ | sel
    · rw [hget] at hsale; exact absurd hsale (by simp)
    · rw [hget] at hsale
      have hs2 := (Option.some.inj hsale).symm
      subst hs2
      intro p2 hp2
      obtain ⟨p, hp, rfl⟩ := List.mem_map.mp hp2
      have hbsum : ∀ x y, activeQuantitySum (sale_item_batches s.batches sel price).1 x y =
          activeQuantitySum s.batches x y -
            (if x = pid ∧ y = sid then (sel.map (·.quantityToDeduct)).sum else 0) := by
        intro x y
        rw [sale_item_batches_fst, applyFinalizations_activeQuantitySum,
          updDB_activeQuantitySum price pid sid sel s.batches hnd
            (selection_ids_nodup hnd hget) (selection_honest_strong hget) x y]
      have hsum := selection_sum_deducts hget (le_of_lt hqty)
      by_cases hpid : p.id = pid
      · have hsid := hps p hp hpid
        rw [if_pos (beq_iff_eq.mpr hpid)]
        show activeQuantitySum (sale_item_batches s.batches sel price).1 p.id p.storeId =
          p.stockQuantity - qty
        rw [hbsum, if_pos ⟨hpid, hsid⟩, hsum, hinv p hp]
      · rw [if_neg (by simpa using hpid)]
        show activeQuantitySum (sale_item_batches s.batches sel price).1 p.id p.storeId =
          p.stockQuantity
        rw [hbsum, if_neg (fun hc => hpid hc.1), hinv p hp]
        omega
  · intro s pid batchNumber sid d updateOriginal s2 hps hinv hupd hinact
    have hne : (s.batches.filter (batchRowMatches pid batchNumber sid)).isEmpty = false := by
      rcases hb : (s.batches.filter (batchRowMatches pid batchNumber sid)).isEmpty
      · rfl
      · exfalso
        have h2 := congrArg Prod.snd hupd
        unfold update_existing_batch_transactional at h2
        simp [hb] at h2
    have hs2 : s2 = (update_existing_batch_transactional s pid batchNumber sid d
        updateOriginal).1 := by rw [hupd]
    subst hs2
    have hinact2 := hinact
    unfold update_existing_batch_transactional at hinact2 ⊢
    simp only [hne, Bool.false_eq_true, if_false] at hinact2 ⊢
    unfold stockInvariant
    intro p2 hp2
    obtain ⟨p, hp, rfl⟩ := List.mem_map.mp hp2
    by_cases hpid : p.id = pid
    · have hsid := hps p hp hpid
      rw [if_pos (beq_iff_eq.mpr hpid)]
      show activeQuantitySum _ p.id p.storeId = totalBatchQuantity _ pid sid
      rw [hpid, hsid]
      exact (total_eq_active_of_inactive_zero pid sid _ (fun b hb => hinact2 b hb)).symm
    · rw [if_neg (by simpa using hpid)]
      show activeQuantitySum (s.batches.map
        (fun b => if batchRowMatches pid batchNumber sid b then
          overwriteBatchRow d updateOriginal b else b)) p.id p.storeId = p.stockQuantity
      rw [activeQuantitySum_map_preserve_filter _ p.id p.storeId s.batches ?hf ?hq]
      · exact hinv p hp
      case hf =>
        intro b _
        by_cases hmb : batchRowMatches pid batchNumber sid b
        · simp only [if_pos hmb]
          exact ⟨by trivial, by trivial, by trivial⟩
        · simp only [if_neg hmb]
          exact ⟨by trivial, by trivial, by trivial⟩
      case hq =>
        intro b _ hbp _
        have hfalse : batchRowMatches pid batchNumber sid b = false := by
          unfold batchRowMatches
          have hb1 : (b.productId == pid) = false := by
            simp only [beq_eq_false_iff_ne, ne_eq]
            intro hc
            exact hpid (by rw [← hbp, hc])
          simp [hb1]
        simp [hfalse]

/-- C8 (amended): along the sale path a batch row's quantity never increases
— every row after the sale descends from a row with the same id and at least
as much quantity — and a new receipt appends a fresh batch row leaving the
existing rows unchanged.  (The import batch-update path is the exception the
counterexample exhibits: it overwrites quantity in place.) -/
theorem c8_amended_quantity_monotone :
    (∀ (s : InventoryState) (pid sid : Nat) (qty : Int) (price : Money) (s2 : InventoryState),
      (s.batches.map (·.id)).Nodup →
      make_sale_item s pid sid qty price = some s2 →
      ∀ b2 ∈ s2.batches, ∃ b ∈ s.batches, b2.id = b.id ∧ b2.quantity ≤ b.quantity) ∧
    (∀ (s : InventoryState) (pid sid : Nat) (d : ImportRowData) (newId receivedDate : Nat),
      (create_stock_batch_transactional s pid sid d newId receivedDate).products =
        s.products ∧
      (create_stock_batch_transactional s pid sid d newId receivedDate).batches.take
        s.batches.length = s.batches ∧
      (create_stock_batch_transactional s pid sid d newId receivedDate).batches.length =
        s.batches.length + 1) := by
  constructor
  · intro s pid sid qty price s2 hnd hsale b2 hb2
    unfold make_sale_item at hsale
    rcases hget : get_stock_batches_for_sale s.batches pid sid qty with _ | sel
    · rw [hget] at hsale; exact absurd hsale (by simp)
    · rw [hget] at hsale
      have hs2 := (Option.some.inj hsale).symm
      subst hs2
      have hb2' : b2 ∈ (sale_item_batches s.batches sel price).1 := hb2
      rw [sale_item_batches_fst] at hb2'
      obtain ⟨b1, hb1, hid1, hq1, _⟩ := applyFinalizations_pointwise sel _ b2 hb2'
      have honest : ∀ e ∈ sel, ∃ b0 ∈ s.batches, b0.id = e.batchId ∧
          e.currentQuantity = b0.quantity ∧ 0 ≤ e.quantityToDeduct := by
        intro e he
        obtain ⟨b0, hb0, h1, h2, h3, _⟩ := selection_honest_strong hget e he
        exact ⟨b0, hb0, h1, h2, h3⟩
      obtain ⟨b, hb, hid2, hq2⟩ :=
        updDB_quantity_le price sel s.batches hnd (selection_ids_nodup hnd hget) honest b1 hb1
      exact ⟨b, hb, hid1.trans hid2, by omega⟩
  · intro s pid sid d newId receivedDate
    refine ⟨rfl, ?_, ?_⟩
    · show (s.batches ++ _).take s.batches.length = s.batches
      exact List.take_left _ _
    · show (s.batches ++ _).length = s.batches.length + 1
      simp


/-- Batch for the C3/C8 amended witnesses: 5 units of product 3. -/
def c3WBatchA : StockBatch :=
  { id := 11, productId := 3, storeId := 1, batchNumber := "WB1", quantity := 5
  , buyingPrice := 100, shippingCost := 0, handlingCost := 0, receivedDate := 1
  , expiryDate := none, isActive := true, expectedMargin := some 50
  , actualMargin := none, totalExpectedProfit := some 250, totalActualProfit := none
  , originalQuantity := 5 }

def c3WState : InventoryState :=
  { products := [{ id := 3, name := "Y", storeId := 1, stockQuantity := 5
                 , lowStockThreshold := 5 }]
  , batches := [c3WBatchA] }

/-- The inventory state `make_sale_item` produces from `c3WState` for a sale
of 3 units at price 150. -/
def c3WS2 : InventoryState :=
  { products := [{ id := 3, name := "Y", storeId := 1, stockQuantity := 2
                 , lowStockThreshold := 5 }]
  , batches := (sale_item_batches [c3WBatchA] [SelEntry.ofBatch c3WBatchA 3] 150).1 }

def c3W2Row : ImportRowData :=
  { stockQuantity := 10, buyingPrice := 100, shippingCost := 0, handlingCost := 0
  , retailPrice := 150, wholesalePrice := 130, expiryDate := none, batchName := "WB1"
  , lowStockThreshold := 5 }

theorem c3_amended_invariant_witness :
    stockInvariant c3WS2 ∧
    stockInvariant (update_existing_batch_transactional c3WState 3 "WB1" 1 c3W2Row true).1 :=
  ⟨c3_amended_invariant.1 c3WState 3 1 3 150 c3WS2 (by decide) (by decide) (by decide)
      (by decide) rfl,
   c3_amended_invariant.2 c3WState 3 "WB1" 1 c3W2Row true _ (by decide) (by decide) rfl
      (by decide)⟩

/-- Batch for the C8 amended witness. -/
def c8WBatch2 : StockBatch :=
  { id := 7, productId := 1, storeId := 1, batchNumber := "WB2", quantity := 5
  , buyingPrice := 100, shippingCost := 0, handlingCost := 0, receivedDate := 1
  , expiryDate := none, isActive := true, expectedMargin := some 50
  , actualMargin := none, totalExpectedProfit := some 250, totalActualProfit := none
  , originalQuantity := 5 }

def c8WState2 : InventoryState :=
  { products := [{ id := 1, name := "Z", storeId := 1, stockQuantity := 5
                 , lowStockThreshold := 5 }]
  , batches := [c8WBatch2] }

/-- The inventory state `make_sale_item` produces from `c8WState2` for a sale
of 3 units at price 150. -/
def c8WS2 : InventoryState :=
  { products := [{ id := 1, name := "Z", storeId := 1, stockQuantity := 2
                 , lowStockThreshold := 5 }]
  , batches := (sale_item_batches [c8WBatch2] [SelEntry.ofBatch c8WBatch2 3] 150).1 }

def c8WRow2 : ImportRowData :=
  { stockQuantity := 4, buyingPrice := 100, shippingCost := 0, handlingCost := 0
  , retailPrice := 150, wholesalePrice := 130, expiryDate := none, batchName := "WB3"
  , lowStockThreshold := 5 }

theorem c8_amended_quantity_monotone_witness :
    (∃ b ∈ c8WState2.batches, (deductedBatch c8WBatch2 3 150).id = b.id ∧
      (deductedBatch c8WBatch2 3 150).quantity ≤ b.quantity) ∧
    (create_stock_batch_transactional c8WState2 1 1 c8WRow2 9 9).batches.take
      c8WState2.batches.length = c8WState2.batches :=
  ⟨(c8_amended_quantity_monotone.1 c8WState2 1 1 3 150 c8WS2 (by decide) rfl)
      (deductedBatch c8WBatch2 3 150)
      (show _ ∈ ([deductedBatch c8WBatch2 3 150] : List StockBatch) from
        List.mem_singleton.mpr rfl),
   (c8_amended_quantity_monotone.2 c8WState2 1 1 c8WRow2 9 9).2.1⟩

end POS
